import Mathlib

/-!
Verification of the CommandConfigurator command-signature registry and its
resolution/binding engine, embedded from `src/commandconfigurator/mgrcmd.py`
and `src/commandconfigurator/plugin.py`.

Tokens are lists of strings.  The entity parsers (`CommandEntryArgument`,
`HandlerArgument`, `GroupArgument`, `CategoryArgument`) consult externally
owned configuration; that configuration is modelled by an explicit `Env`
value holding the stored keys the lookups consult.
-/

namespace CmdConf

/-- The four `ArgumentParser` subclasses of `mgrcmd.py`. -/
inductive ParserKind where
  | entry
  | handlerRef
  | group
  | category
deriving DecidableEq, Repr

/-- One element of a `Handler(...)` pattern, i.e. one entry of `Handler.args`.
`lit s` is a plain string literal, `parser p` an `ArgumentParser` instance,
`strT` the type `str`, `restT` the type `list` / `list[str]`, and
`unionNone t` a `types.UnionType` whose arguments are `(t, NoneType)`
(such as `str | None`). -/
inductive ParamTyp where
  | lit (text : String)
  | parser (p : ParserKind)
  | strT
  | restT
  | unionNone (inner : ParamTyp)
deriving DecidableEq, Repr

/-- Values produced by argument collection and parameter binding. -/
inductive Value where
  | vStr (s : String)
  | vRest (ts : List String)
  | vEntry (name : String)
  | vHandler (name : String)
  | vGroup (name : String)
  | vCategory (name : String)
  | vNone
deriving DecidableEq, Repr

/-- One declared callback parameter (beyond `self` and `ctx`), as
`inspect.signature` exposes it: its name, whether its annotation is a
union with `None`, and its declared default if any. -/
structure Param where
  pname : String
  nullable : Bool
  dflt : Option Value
deriving DecidableEq, Repr

/-- A registered `@Handler(...)` signature: its registration index, its
pattern `args`, and the declared parameters of its callback. -/
structure Handler where
  hid : Nat
  args : List ParamTyp
  params : List Param
deriving DecidableEq, Repr

/-- External configuration the entity parsers consult:
`categories` maps a category name to the keys of its `commands` dict,
`handlers` holds the registered handler ids, `groups` the group names. -/
structure Env where
  categories : List (String × List String)
  handlers : List String
  groups : List String
deriving DecidableEq, Repr

/-- Python's `str.lower()` as used throughout `mgrcmd.py` (ASCII case
folding suffices for every comparison the code performs). -/
def strLower (s : String) : String := ⟨s.data.map Char.toLower⟩

/-- Failure message of `CommandEntryArgument.parse`. -/
def entryMsg (n : String) : String :=
  ":grey_exclamation: コマンド `" ++ n ++ "` は定義されていません"

/-- Failure message of `HandlerArgument.parse`. -/
def handlerMsg (n : String) : String :=
  ":grey_exclamation: ハンドラID `" ++ n ++ "` は登録されていません"

/-- Failure message of `GroupArgument.parse`. -/
def groupMsg (n : String) : String :=
  ":grey_exclamation: グループ `" ++ n ++ "` は定義されていません"

/-- Failure message of `CategoryArgument.parse`. -/
def categoryMsg (n : String) : String :=
  ":grey_exclamation: カテゴリ `" ++ n ++ "` は定義されていません"

/-- The `parse` method of each `ArgumentParser` subclass: the token is
lower-cased and looked up; success returns the resolved value, failure
raises `CommandMessageError` with the corresponding message. -/
def runParser (env : Env) (p : ParserKind) (tok : String) : Except String Value :=
  match p with
  | .entry =>
      if env.categories.any (fun c => c.2.contains (strLower tok)) then
        .ok (.vEntry (strLower tok))
      else
        .error (entryMsg (strLower tok))
  | .handlerRef =>
      if env.handlers.contains (strLower tok) then
        .ok (.vHandler (strLower tok))
      else
        .error (handlerMsg (strLower tok))
  | .group =>
      if env.groups.contains (strLower tok) then
        .ok (.vGroup (strLower tok))
      else
        .error (groupMsg (strLower tok))
  | .category =>
      if (env.categories.map Prod.fst).contains (strLower tok) then
        .ok (.vCategory (strLower tok))
      else
        .error (categoryMsg (strLower tok))

/-- `Handler.ignore_args_size`: true when `args` is nonempty and its last
element is `list` or `list[str]` (the raw element, unions not unwrapped). -/
def Handler.ignoreArgsSize (h : Handler) : Bool :=
  match h.args.getLast? with
  | some .restT => true
  | _ => false

/-- The union unwrapping of `get_command`: a `types.UnionType` containing
`NoneType` is replaced by its first argument ("first only"). -/
def unwrapUnion : ParamTyp → ParamTyp
  | .unionNone inner => inner
  | t => t

/-- A live candidate during one resolution call: the handler together with
its collected positional values (`_args[cmd]`). -/
structure Cand where
  h : Handler
  vals : List Value
deriving DecidableEq, Repr

/-- Processing of one candidate at token position `idx` with token `arg`
(the body of the inner loop of `get_command`): `.error m` is a raised
`CommandMessageError`, `.ok none` is elimination, `.ok (some c')` keeps the
candidate with its updated collected values. -/
def stepOne (env : Env) (toks : List String) (idx : Nat) (arg : String)
    (c : Cand) : Except String (Option Cand) :=
  match c.h.args[idx]? with
  | none => if c.h.ignoreArgsSize then .ok (some c) else .ok none
  | some typ0 =>
      match unwrapUnion typ0 with
      | .lit text =>
          if strLower text = strLower arg then .ok (some c) else .ok none
      | .parser p =>
          match runParser env p arg with
          | .error m => .error m
          | .ok v => .ok (some ⟨c.h, c.vals ++ [v]⟩)
      | .strT => .ok (some ⟨c.h, c.vals ++ [.vStr arg]⟩)
      | .restT => .ok (some ⟨c.h, c.vals ++ [.vRest (toks.drop idx)]⟩)
      | .unionNone _ => .ok (some c)

/-- One full token position of the scan: every candidate still live at the
start of the position is processed in order; a raised parser failure aborts
the whole call before any later candidate is examined. -/
def scanPos (env : Env) (toks : List String) (idx : Nat) (arg : String) :
    List Cand → Except String (List Cand)
  | [] => .ok []
  | c :: cs =>
      match stepOne env toks idx arg c with
      | .error m => .error m
      | .ok none => scanPos env toks idx arg cs
      | .ok (some c') =>
          Except.map (fun r => c' :: r) (scanPos env toks idx arg cs)

/-- The outer `for idx, arg in enumerate(arguments)` loop of `get_command`:
positions are scanned left to right starting at `idx`. -/
def scanFrom (env : Env) (toks : List String) :
    Nat → List String → List Cand → Except String (List Cand)
  | _, [], cands => .ok cands
  | idx, arg :: rest, cands =>
      match scanPos env toks idx arg cands with
      | .error m => .error m
      | .ok cands' => scanFrom env toks (idx + 1) rest cands'

/-- Whether a pattern element is a union with `None`, i.e. is allowed to be
silently absent by the post-scan arity check. -/
def nullableTyp : ParamTyp → Bool
  | .unionNone _ => true
  | _ => false

/-- The post-scan arity check of `get_command` for one candidate: every
pattern element at a position at or past the input length must be a union
with `None`, otherwise the candidate is removed (an arity-only
elimination, recorded in `arg_errors`). -/
def arityOk (n : Nat) (h : Handler) : Bool :=
  (h.args.drop n).all nullableTyp

/-- `MyCommandHandler.get_handler_params` restricted to the declared
parameters beyond `self` and `ctx`: each parameter in order pops the next
collected value; when none is left, a nullable annotation binds `None`,
else a declared default binds that default, else the `IndexError`
propagates (modelled as `none`). -/
def getHandlerParams : List Param → List Value → Option (List (String × Value))
  | [], _ => some []
  | p :: ps, v :: vs =>
      (getHandlerParams ps vs).map (fun kw => (p.pname, v) :: kw)
  | p :: ps, [] =>
      if p.nullable then
        (getHandlerParams ps []).map (fun kw => (p.pname, Value.vNone) :: kw)
      else
        match p.dflt with
        | some d => (getHandlerParams ps []).map (fun kw => (p.pname, d) :: kw)
        | none => none

/-- Outcome of one resolution call, as observed by `plugin.py`:
a resolved handler with its keyword arguments, a raised
`CommandMessageError` with its message, a raised `CommandInfoError`
naming a handler, or a raised `CommandNotFoundError`. -/
inductive CmdResult where
  | resolved (hid : Nat) (kwargs : List (String × Value))
  | messageFailure (msg : String)
  | incomplete (hid : Nat)
  | notFound
deriving DecidableEq, Repr

/-- The fresh candidate list of one call: every registered handler in
registration order, with no collected values. -/
def initCands (reg : List Handler) : List Cand :=
  reg.map (fun h => ⟨h, []⟩)

/-- The tail of `get_command` after the scan loop, for an input of `n`
tokens: an empty live set fails with not-found; the arity check splits the
live set into survivors and arity-only eliminations (`arg_errors`); with no
survivor, exactly one arity-only elimination yields `incomplete` naming it
and any other count yields not-found; otherwise the first survivor wins and
its collected values are bound, a binding failure yielding `incomplete`
naming the winner. -/
def postScan (n : Nat) (cands : List Cand) : CmdResult :=
  if cands = [] then .notFound
  else
    match cands.filter (fun c => arityOk n c.h) with
    | [] =>
        match cands.filter (fun c => ! arityOk n c.h) with
        | [e] => .incomplete e.h.hid
        | _ => .notFound
    | w :: _ =>
        match getHandlerParams w.h.params w.vals with
        | none => .incomplete w.h.hid
        | some kw => .resolved w.h.hid kw

/-- `MyCommandHandler.get_command`, parameterised by the registered handler
list: empty input fails with not-found; the scan runs over every token
position, a raised parser failure surfacing directly; then the post-scan
decision runs on the surviving candidates. -/
def getCommandWith (reg : List Handler) (env : Env) (toks : List String) :
    CmdResult :=
  if toks = [] then .notFound
  else
    match scanFrom env toks 0 toks (initCands reg) with
    | .error m => .messageFailure m
    | .ok cands => postScan toks.length cands

/-- Short constructor for a parameter with no declared default. -/
def prm (s : String) (b : Bool) : Param := ⟨s, b, none⟩

/-- Signature 0: `@Handler("listCommands")`. -/
def hdl0 : Handler := ⟨0, [.lit "listCommands"], []⟩

/-- Signature 1: `@Handler("addCommand", str, str | None, str | None)`. -/
def hdl1 : Handler :=
  ⟨1, [.lit "addCommand", .strT, .unionNone .strT, .unionNone .strT],
    [prm "name" false, prm "handler_id" true, prm "category" true]⟩

/-- Signature 2: `@Handler("removeCommand", CommandEntryArgument())`. -/
def hdl2 : Handler := ⟨2, [.lit "removeCommand", .parser .entry], [prm "name" false]⟩

/-- Signature 3: `@Handler("command", CommandEntryArgument())`. -/
def hdl3 : Handler := ⟨3, [.lit "command", .parser .entry], [prm "name" false]⟩

/-- Signature 4: `@Handler("command", CommandEntryArgument(), "info")`. -/
def hdl4 : Handler :=
  ⟨4, [.lit "command", .parser .entry, .lit "info"], [prm "name" false]⟩

/-- Signature 5: `@Handler("command", CommandEntryArgument(), "setHandler",
HandlerArgument())`. -/
def hdl5 : Handler :=
  ⟨5, [.lit "command", .parser .entry, .lit "setHandler", .parser .handlerRef],
    [prm "name" false, prm "handler_id" false]⟩

/-- Signature 6: `@Handler("command", CommandEntryArgument(), "addAlias",
list[str])`. -/
def hdl6 : Handler :=
  ⟨6, [.lit "command", .parser .entry, .lit "addAlias", .restT],
    [prm "name" false, prm "alias" false]⟩

/-- Signature 7: `@Handler("command", CommandEntryArgument(), "removeAlias",
list[str])`. -/
def hdl7 : Handler :=
  ⟨7, [.lit "command", .parser .entry, .lit "removeAlias", .restT],
    [prm "name" false, prm "alias" false]⟩

/-- Signature 8: `@Handler("command", CommandEntryArgument(), "setUsage", str)`. -/
def hdl8 : Handler :=
  ⟨8, [.lit "command", .parser .entry, .lit "setUsage", .strT],
    [prm "name" false, prm "usage" false]⟩

/-- Signature 9: `@Handler("command", CommandEntryArgument(), "resetUsage")`. -/
def hdl9 : Handler :=
  ⟨9, [.lit "command", .parser .entry, .lit "resetUsage"], [prm "name" false]⟩

/-- Signature 10: `@Handler("command", CommandEntryArgument(), "setCategory",
CategoryArgument())`. -/
def hdl10 : Handler :=
  ⟨10, [.lit "command", .parser .entry, .lit "setCategory", .parser .category],
    [prm "name" false, prm "category" false]⟩

/-- Signature 11: `@Handler("command", CommandEntryArgument(), "resetCategory")`. -/
def hdl11 : Handler :=
  ⟨11, [.lit "command", .parser .entry, .lit "resetCategory"], [prm "name" false]⟩

/-- Signature 12: `@Handler("command", CommandEntryArgument(), "test", str)`. -/
def hdl12 : Handler :=
  ⟨12, [.lit "command", .parser .entry, .lit "test", .strT],
    [prm "name" false, prm "user" false]⟩

/-- Signature 13: `@Handler("listGroups")`. -/
def hdl13 : Handler := ⟨13, [.lit "listGroups"], []⟩

/-- Signature 14: `@Handler("createGroup", str, list[str] | None)`. -/
def hdl14 : Handler :=
  ⟨14, [.lit "createGroup", .strT, .unionNone .restT],
    [prm "name" false, prm "allowed_commands" true]⟩

/-- Signature 15: `@Handler("deleteGroup", GroupArgument())`. -/
def hdl15 : Handler := ⟨15, [.lit "deleteGroup", .parser .group], [prm "name" false]⟩

/-- Signature 16: `@Handler("group", GroupArgument())`. -/
def hdl16 : Handler := ⟨16, [.lit "group", .parser .group], [prm "name" false]⟩

/-- Signature 17: `@Handler("group", GroupArgument(), "info")`. -/
def hdl17 : Handler :=
  ⟨17, [.lit "group", .parser .group, .lit "info"], [prm "name" false]⟩

/-- Signature 18: `@Handler("group", GroupArgument(), "addCommand",
CommandEntryArgument())`. -/
def hdl18 : Handler :=
  ⟨18, [.lit "group", .parser .group, .lit "addCommand", .parser .entry],
    [prm "name" false, prm "command" false]⟩

/-- Signature 19: `@Handler("group", GroupArgument(), "removeCommand",
CommandEntryArgument())`. -/
def hdl19 : Handler :=
  ⟨19, [.lit "group", .parser .group, .lit "removeCommand", .parser .entry],
    [prm "name" false, prm "command" false]⟩

/-- Signature 20: `@Handler("group", GroupArgument(), "addUser", str)`. -/
def hdl20 : Handler :=
  ⟨20, [.lit "group", .parser .group, .lit "addUser", .strT],
    [prm "name" false, prm "user" false]⟩

/-- Signature 21: `@Handler("group", GroupArgument(), "removeUser", str)`. -/
def hdl21 : Handler :=
  ⟨21, [.lit "group", .parser .group, .lit "removeUser", .strT],
    [prm "name" false, prm "user" false]⟩

/-- Signature 22: `@Handler("group", GroupArgument(), "addRole", str)`. -/
def hdl22 : Handler :=
  ⟨22, [.lit "group", .parser .group, .lit "addRole", .strT],
    [prm "name" false, prm "role" false]⟩

/-- Signature 23: `@Handler("group", GroupArgument(), "removeRole", str)`. -/
def hdl23 : Handler :=
  ⟨23, [.lit "group", .parser .group, .lit "removeRole", .strT],
    [prm "name" false, prm "role" false]⟩

/-- Signature 24: `@Handler("listCategories")`. -/
def hdl24 : Handler := ⟨24, [.lit "listCategories"], []⟩

/-- Signature 25: `@Handler("addCategory", str, str | None, list[str] | None)`. -/
def hdl25 : Handler :=
  ⟨25, [.lit "addCategory", .strT, .unionNone .strT, .unionNone .restT],
    [prm "name" false, prm "label" true, prm "commands" true]⟩

/-- Signature 26: `@Handler("removeCategory", CategoryArgument())`. -/
def hdl26 : Handler :=
  ⟨26, [.lit "removeCategory", .parser .category], [prm "name" false]⟩

/-- Signature 27: `@Handler("category", CategoryArgument())`. -/
def hdl27 : Handler := ⟨27, [.lit "category", .parser .category], [prm "name" false]⟩

/-- Signature 28: `@Handler("category", CategoryArgument(), "info")`. -/
def hdl28 : Handler :=
  ⟨28, [.lit "category", .parser .category, .lit "info"], [prm "name" false]⟩

/-- Signature 29: `@Handler("category", CategoryArgument(), "move", str)`. -/
def hdl29 : Handler :=
  ⟨29, [.lit "category", .parser .category, .lit "move", .strT],
    [prm "name" false, prm "number" false]⟩

/-- Signature 30: `@Handler("category", CategoryArgument(), "setLabel", str)`. -/
def hdl30 : Handler :=
  ⟨30, [.lit "category", .parser .category, .lit "setLabel", .strT],
    [prm "name" false, prm "label" false]⟩

/-- Signature 31: `@Handler("category", CategoryArgument(), "addCommand",
CommandEntryArgument())`. -/
def hdl31 : Handler :=
  ⟨31, [.lit "category", .parser .category, .lit "addCommand", .parser .entry],
    [prm "name" false, prm "command" false]⟩

/-- Signature 32: `@Handler("category", CategoryArgument(), "removeCommand", str)`. -/
def hdl32 : Handler :=
  ⟨32, [.lit "category", .parser .category, .lit "removeCommand", .strT],
    [prm "name" false, prm "command" false]⟩

/-- The registry built by the `@Handler(...)` decorators of `mgrcmd.py`,
in source (= registration) order. -/
def Handler.handlers : List Handler :=
  [hdl0, hdl1, hdl2, hdl3, hdl4, hdl5, hdl6, hdl7, hdl8, hdl9, hdl10, hdl11,
   hdl12, hdl13, hdl14, hdl15, hdl16, hdl17, hdl18, hdl19, hdl20, hdl21,
   hdl22, hdl23, hdl24, hdl25, hdl26, hdl27, hdl28, hdl29, hdl30, hdl31, hdl32]

/-- `get_command` against the registry actually built by `mgrcmd.py`. -/
def getCommand (env : Env) (toks : List String) : CmdResult :=
  getCommandWith Handler.handlers env toks

/-- A small concrete environment: one category `general` holding the
command entry `ping`; no handler ids; no groups. -/
def env0 : Env := ⟨[("general", ["ping"])], [], []⟩

/-! ### Small-step lemmas about the scan -/

theorem scanPos_nil (env : Env) (toks : List String) (idx : Nat) (arg : String) :
    scanPos env toks idx arg [] = .ok [] := rfl

theorem scanPos_cons (env : Env) (toks : List String) (idx : Nat) (arg : String)
    (c : Cand) (cs : List Cand) :
    scanPos env toks idx arg (c :: cs) =
      match stepOne env toks idx arg c with
      | .error m => .error m
      | .ok none => scanPos env toks idx arg cs
      | .ok (some c') =>
          Except.map (fun r => c' :: r) (scanPos env toks idx arg cs) := rfl

theorem scanFrom_cons (env : Env) (toks : List String) (idx : Nat) (arg : String)
    (rest : List String) (cands : List Cand) :
    scanFrom env toks idx (arg :: rest) cands =
      match scanPos env toks idx arg cands with
      | .error m => .error m
      | .ok cands' => scanFrom env toks (idx + 1) rest cands' := rfl

theorem scanPos_cons_error (env : Env) (toks : List String) (idx : Nat)
    (arg : String) (c : Cand) (cs : List Cand) {m : String}
    (h : stepOne env toks idx arg c = .error m) :
    scanPos env toks idx arg (c :: cs) = .error m := by
  rw [scanPos_cons, h]

theorem scanPos_cons_drop (env : Env) (toks : List String) (idx : Nat)
    (arg : String) (c : Cand) (cs : List Cand)
    (h : stepOne env toks idx arg c = .ok none) :
    scanPos env toks idx arg (c :: cs) = scanPos env toks idx arg cs := by
  rw [scanPos_cons, h]

theorem scanPos_cons_keep (env : Env) (toks : List String) (idx : Nat)
    (arg : String) (c : Cand) (cs : List Cand) {c' : Cand}
    (h : stepOne env toks idx arg c = .ok (some c')) :
    scanPos env toks idx arg (c :: cs) =
      Except.map (fun r => c' :: r) (scanPos env toks idx arg cs) := by
  rw [scanPos_cons, h]

theorem scanFrom_nil (env : Env) (toks : List String) (idx : Nat)
    (cands : List Cand) : scanFrom env toks idx [] cands = .ok cands := rfl

theorem scanFrom_cons_ok (env : Env) (toks : List String) (idx : Nat)
    (arg : String) (rest : List String) (cands : List Cand) {cands' : List Cand}
    (h : scanPos env toks idx arg cands = .ok cands') :
    scanFrom env toks idx (arg :: rest) cands =
      scanFrom env toks (idx + 1) rest cands' := by
  rw [scanFrom_cons, h]

theorem scanFrom_cons_error (env : Env) (toks : List String) (idx : Nat)
    (arg : String) (rest : List String) (cands : List Cand) {m : String}
    (h : scanPos env toks idx arg cands = .error m) :
    scanFrom env toks idx (arg :: rest) cands = .error m := by
  rw [scanFrom_cons, h]

theorem stepOne_parser_error {env : Env} {toks : List String} {idx : Nat}
    {arg : String} {c : Cand} {p : ParserKind} {m : String}
    (hargs : c.h.args[idx]? = some (.parser p))
    (hp : runParser env p arg = .error m) :
    stepOne env toks idx arg c = .error m := by
  unfold stepOne
  rw [hargs]
  simp [unwrapUnion, hp]

theorem stepOne_parser_ok {env : Env} {toks : List String} {idx : Nat}
    {arg : String} {c : Cand} {p : ParserKind} {v : Value}
    (hargs : c.h.args[idx]? = some (.parser p))
    (hp : runParser env p arg = .ok v) :
    stepOne env toks idx arg c = .ok (some ⟨c.h, c.vals ++ [v]⟩) := by
  unfold stepOne
  rw [hargs]
  simp [unwrapUnion, hp]

theorem stepOne_str {env : Env} {toks : List String} {idx : Nat}
    {arg : String} {c : Cand} {t : ParamTyp}
    (hargs : c.h.args[idx]? = some t) (hu : unwrapUnion t = .strT) :
    stepOne env toks idx arg c = .ok (some ⟨c.h, c.vals ++ [.vStr arg]⟩) := by
  unfold stepOne
  rw [hargs]
  simp [hu]

theorem stepOne_rest {env : Env} {toks : List String} {idx : Nat}
    {arg : String} {c : Cand} {t : ParamTyp}
    (hargs : c.h.args[idx]? = some t) (hu : unwrapUnion t = .restT) :
    stepOne env toks idx arg c =
      .ok (some ⟨c.h, c.vals ++ [.vRest (toks.drop idx)]⟩) := by
  unfold stepOne
  rw [hargs]
  simp [hu]

theorem stepOne_oob_keep {env : Env} {toks : List String} {idx : Nat}
    {arg : String} {c : Cand} (hargs : c.h.args[idx]? = none)
    (hi : c.h.ignoreArgsSize = true) :
    stepOne env toks idx arg c = .ok (some c) := by
  unfold stepOne
  rw [hargs]
  simp [hi]

theorem getCommandWith_scan_ok {reg : List Handler} {env : Env}
    {toks : List String} {cands : List Cand} (hne : toks ≠ [])
    (hscan : scanFrom env toks 0 toks (initCands reg) = .ok cands) :
    getCommandWith reg env toks = postScan toks.length cands := by
  unfold getCommandWith
  rw [if_neg hne, hscan]

theorem getCommandWith_scan_error {reg : List Handler} {env : Env}
    {toks : List String} {m : String} (hne : toks ≠ [])
    (hscan : scanFrom env toks 0 toks (initCands reg) = .error m) :
    getCommandWith reg env toks = .messageFailure m := by
  unfold getCommandWith
  rw [if_neg hne, hscan]

theorem postScan_single_winner {n : Nat} {c : Cand} {kw : List (String × Value)}
    (har : arityOk n c.h = true)
    (hbind : getHandlerParams c.h.params c.vals = some kw) :
    postScan n [c] = .resolved c.h.hid kw := by
  unfold postScan
  rw [if_neg (by simp)]
  simp [List.filter_cons, har, hbind]

/-- When a candidate raises a parser failure at a position, the whole
position aborts with that failure: candidates after it in the live list
are never examined, whatever they would have matched. -/
theorem scanPos_abort (env : Env) (toks : List String) (idx : Nat)
    (arg : String) (pre : List Cand) (c : Cand) (post : List Cand)
    (m : String)
    (hpre : ∀ c' ∈ pre, ∃ o, stepOne env toks idx arg c' = .ok o)
    (hc : stepOne env toks idx arg c = .error m) :
    scanPos env toks idx arg (pre ++ c :: post) = .error m := by
  induction pre with
  | nil => simpa using scanPos_cons_error env toks idx arg c post hc
  | cons a pre ih =>
      obtain ⟨o, ho⟩ := hpre a (by simp)
      have ih' := ih (fun c' hc' => hpre c' (by simp [hc']))
      cases o with
      | none =>
          rw [List.cons_append, scanPos_cons_drop env toks idx arg a _ ho]
          exact ih'
      | some a' =>
          rw [List.cons_append, scanPos_cons_keep env toks idx arg a _ ho, ih']
          rfl

/-- A position whose element is the same succeeding typed parser for every
live candidate appends the parsed value to each of them. -/
theorem scanPosAllParser (env : Env) (toks : List String) (idx : Nat)
    (arg : String) (p : ParserKind) (v : Value)
    (hv : runParser env p arg = .ok v) :
    ∀ cands : List Cand, (∀ c ∈ cands, c.h.args[idx]? = some (.parser p)) →
      scanPos env toks idx arg cands =
        .ok (cands.map (fun c => ⟨c.h, c.vals ++ [v]⟩)) := by
  intro cands
  induction cands with
  | nil => intro _; rfl
  | cons c cs ih =>
      intro hall
      rw [scanPos_cons_keep _ _ _ _ _ _ (stepOne_parser_ok (hall c (by simp)) hv),
        ih (fun c hc => hall c (by simp [hc]))]
      rfl

/-- A candidate whose pattern is exhausted and whose last element is a
rest capture stays live, untouched, through every further position. -/
theorem scanFrom_single_exhausted (env : Env) (toks : List String)
    (h : Handler) (vs : List Value) (hi : h.ignoreArgsSize = true) :
    ∀ (rest : List String) (idx : Nat), h.args.length ≤ idx →
      scanFrom env toks idx rest [⟨h, vs⟩] = .ok [⟨h, vs⟩] := by
  intro rest
  induction rest with
  | nil => intro idx _; rfl
  | cons a rest ih =>
      intro idx hidx
      have hargs : h.args[idx]? = none := by
        exact List.getElem?_eq_none hidx
      rw [scanFrom_cons_ok env toks idx a rest [⟨h, vs⟩]
        (by rw [scanPos_cons_keep env toks idx a _ _ (stepOne_oob_keep hargs hi),
              scanPos_nil]; rfl)]
      exact ih (idx + 1) (Nat.le_succ_of_le hidx)

/-- Resolution of the two `command (entry) <literal> list[str]` signatures
on an input with at least one token at the rest position: the winner is
that signature and the rest parameter receives the whole remaining
suffix. -/
theorem restCaptureResolve (env : Env) (e : String) (v : Value) (r : String)
    (rest : List String) (hx : runParser env .entry e = .ok v)
    (lit3 : String) (hd : Handler)
    (hargs : hd.args = [.lit "command", .parser .entry, .lit lit3, .restT])
    (hparams : hd.params = [prm "name" false, prm "alias" false])
    (h2 : scanPos env ("command" :: e :: lit3 :: r :: rest) 2 lit3
      ([hdl3, hdl4, hdl5, hdl6, hdl7, hdl8, hdl9, hdl10, hdl11, hdl12].map
        (fun h => (⟨h, [v]⟩ : Cand))) = .ok [⟨hd, [v]⟩]) :
    getCommand env ("command" :: e :: lit3 :: r :: rest) =
      .resolved hd.hid [("name", v), ("alias", .vRest (r :: rest))] := by
  set toks := "command" :: e :: lit3 :: r :: rest with htoks
  have h0 : scanPos env toks 0 "command" (initCands Handler.handlers) =
      .ok (initCands [hdl3, hdl4, hdl5, hdl6, hdl7, hdl8, hdl9, hdl10,
        hdl11, hdl12]) := rfl
  have h1 : scanPos env toks 1 e
      (initCands [hdl3, hdl4, hdl5, hdl6, hdl7, hdl8, hdl9, hdl10, hdl11,
        hdl12]) =
      .ok ([hdl3, hdl4, hdl5, hdl6, hdl7, hdl8, hdl9, hdl10, hdl11,
        hdl12].map (fun h => ⟨h, [v]⟩)) := by
    have := scanPosAllParser env toks 1 e .entry v hx
      (initCands [hdl3, hdl4, hdl5, hdl6, hdl7, hdl8, hdl9, hdl10, hdl11,
        hdl12]) (by decide)
    simpa [initCands] using this
  have hstep : stepOne env toks 3 r ⟨hd, [v]⟩ =
      .ok (some ⟨hd, [v, .vRest (r :: rest)]⟩) := by
    exact stepOne_rest (show (⟨hd, [v]⟩ : Cand).h.args[3]? = some .restT by
      simp [hargs]) rfl
  have h3 : scanPos env toks 3 r [⟨hd, [v]⟩] =
      .ok [⟨hd, [v, .vRest (r :: rest)]⟩] := by
    rw [scanPos_cons_keep _ _ _ _ _ _ hstep, scanPos_nil]
    rfl
  have hi : hd.ignoreArgsSize = true := by
    unfold Handler.ignoreArgsSize
    rw [hargs]
    rfl
  have hlen : hd.args.length = 4 := by rw [hargs]; rfl
  have h4 : scanFrom env toks 4 rest [⟨hd, [v, .vRest (r :: rest)]⟩] =
      .ok [⟨hd, [v, .vRest (r :: rest)]⟩] :=
    scanFrom_single_exhausted env toks hd _ hi rest 4 (by simp [hlen])
  have h3' : scanFrom env toks 3 (r :: rest) [⟨hd, [v]⟩] =
      .ok [⟨hd, [v, .vRest (r :: rest)]⟩] := by
    rw [scanFrom_cons_ok _ _ _ _ _ _ h3]; exact h4
  have h2' : scanFrom env toks 2 (lit3 :: r :: rest)
      ([hdl3, hdl4, hdl5, hdl6, hdl7, hdl8, hdl9, hdl10, hdl11, hdl12].map
        (fun h => (⟨h, [v]⟩ : Cand))) =
      .ok [⟨hd, [v, .vRest (r :: rest)]⟩] := by
    rw [scanFrom_cons_ok _ _ _ _ _ _ h2]; exact h3'
  have h1' : scanFrom env toks 1 (e :: lit3 :: r :: rest)
      (initCands [hdl3, hdl4, hdl5, hdl6, hdl7, hdl8, hdl9, hdl10, hdl11,
        hdl12]) = .ok [⟨hd, [v, .vRest (r :: rest)]⟩] := by
    rw [scanFrom_cons_ok _ _ _ _ _ _ h1]; exact h2'
  have h0' : scanFrom env toks 0 toks (initCands Handler.handlers) =
      .ok [⟨hd, [v, .vRest (r :: rest)]⟩] := by
    rw [htoks, scanFrom_cons_ok _ _ _ _ _ _ h0]; exact h1'
  have har : arityOk toks.length hd = true := by
    unfold arityOk
    rw [List.drop_eq_nil_of_le (by simp [htoks, hlen])]
    rfl
  have hbind : getHandlerParams hd.params [v, .vRest (r :: rest)] =
      some [("name", v), ("alias", .vRest (r :: rest))] := by
    rw [hparams]; rfl
  rw [show getCommand env toks = getCommandWith Handler.handlers env toks
    from rfl, getCommandWith_scan_ok (by simp [htoks]) h0']
  exact postScan_single_winner har hbind

/-- The placeholder `Param` used by out-of-range `getD` reads in the
spec-side binder below. -/
def dfltParam : Param := ⟨"", false, none⟩

/-- Binder formulated from the spec's words (§4.4): each declared
parameter, in order, receives the next unconsumed positional value when
one exists, so the i-th parameter sees the i-th value; when none exists it
is bound to null if its type permits absence, else to its declared
default, and binding fails iff some parameter has neither a value, nor
nullability, nor a default. -/
def bindSpec (ps : List Param) (vs : List Value) :
    Option (List (String × Value)) :=
  if (List.range ps.length).all (fun i =>
      (vs[i]?).isSome || (ps.getD i dfltParam).nullable
        || ((ps.getD i dfltParam).dflt).isSome) then
    some ((List.range ps.length).map (fun i =>
      let p := ps.getD i dfltParam
      (p.pname, match vs[i]? with
        | some v => v
        | none => if p.nullable then Value.vNone else p.dflt.getD Value.vNone)))
  else none

/-- The code's binder coincides with the spec-side indexed binder. -/
theorem getHandlerParams_eq_bindSpec :
    ∀ (ps : List Param) (vs : List Value),
      getHandlerParams ps vs = bindSpec ps vs := by
  intro ps
  induction ps with
  | nil => intro vs; simp [getHandlerParams, bindSpec]
  | cons p ps ih =>
      intro vs
      cases vs with
      | cons v vs' =>
          rw [show getHandlerParams (p :: ps) (v :: vs') =
              (getHandlerParams ps vs').map (fun kw => (p.pname, v) :: kw)
            from rfl, ih]
          unfold bindSpec
          rw [List.length_cons, List.range_succ_eq_map]
          simp [List.all_cons, List.map_map, Function.comp_def]
      | nil =>
          rw [show getHandlerParams (p :: ps) [] =
              (if p.nullable then
                (getHandlerParams ps []).map
                  (fun kw => (p.pname, Value.vNone) :: kw)
              else
                match p.dflt with
                | some d => (getHandlerParams ps []).map
                    (fun kw => (p.pname, d) :: kw)
                | none => none) from rfl]
          unfold bindSpec
          rw [List.length_cons, List.range_succ_eq_map]
          by_cases hp : p.nullable
          · simp [hp, ih, bindSpec, List.all_cons, List.map_map,
              Function.comp_def]
          · cases hd : p.dflt with
            | some d =>
                simp [hp, hd, ih, bindSpec, List.all_cons, List.map_map,
                  Function.comp_def]
            | none => simp [hp, hd, List.all_cons]

/-- With at least one arity-check survivor, the post-scan decision is
entirely determined by the first survivor: its binding result. -/
theorem postScan_winner {n : Nat} {cands : List Cand} {w : Cand}
    {ws : List Cand}
    (hfilter : cands.filter (fun c => arityOk n c.h) = w :: ws) :
    postScan n cands =
      match getHandlerParams w.h.params w.vals with
      | none => .incomplete w.h.hid
      | some kw => .resolved w.h.hid kw := by
  have hcne : cands ≠ [] := by
    intro h
    subst h
    simp at hfilter
  unfold postScan
  rw [if_neg hcne, hfilter]

/-- Whether a pattern element contributes one collected value when its
candidate stays live at its position. -/
def contributes (t : ParamTyp) : Bool :=
  match unwrapUnion t with
  | .parser _ => true
  | .strT => true
  | .restT => true
  | _ => false

/-- Whether position `idx` of handler `h` contributes a collected value. -/
def contributesAt (h : Handler) (idx : Nat) : Bool :=
  match h.args[idx]? with
  | some t => contributes t
  | none => false

/-- Number of contributing positions of `h` among `n` positions starting
at `idx`. -/
def contribFrom (h : Handler) : Nat → Nat → Nat
  | _, 0 => 0
  | idx, n + 1 => (if contributesAt h idx then 1 else 0) + contribFrom h (idx + 1) n

theorem stepOne_kept {env : Env} {toks : List String} {idx : Nat}
    {arg : String} {c₀ c : Cand}
    (hstep : stepOne env toks idx arg c₀ = .ok (some c)) :
    c.h = c₀.h
    ∧ c.vals.length =
        c₀.vals.length + (if contributesAt c₀.h idx then 1 else 0)
    ∧ (c₀.h.ignoreArgsSize = true ∨ idx < c₀.h.args.length) := by
  unfold stepOne at hstep
  split at hstep
  next heq =>
    split at hstep
    next hi =>
      obtain rfl : c₀ = c := by simpa using hstep
      exact ⟨rfl, by simp [contributesAt, heq], Or.inl hi⟩
    next hi => simp at hstep
  next typ0 heq =>
    have hlt : idx < c₀.h.args.length := by
      by_contra hge
      rw [List.getElem?_eq_none (Nat.le_of_not_lt hge)] at heq
      exact Option.noConfusion heq
    have hca : contributesAt c₀.h idx = contributes typ0 := by
      simp [contributesAt, heq]
    split at hstep
    next text hu =>
      split at hstep
      · obtain rfl : c₀ = c := by simpa using hstep
        exact ⟨rfl, by simp [hca, contributes, hu], Or.inr hlt⟩
      · simp at hstep
    next p hu =>
      split at hstep
      next m hp => simp at hstep
      next v hp =>
        obtain rfl : (⟨c₀.h, c₀.vals ++ [v]⟩ : Cand) = c := by
          simpa using hstep
        exact ⟨rfl, by simp [hca, contributes, hu], Or.inr hlt⟩
    next hu =>
      obtain rfl : (⟨c₀.h, c₀.vals ++ [.vStr arg]⟩ : Cand) = c := by
        simpa using hstep
      exact ⟨rfl, by simp [hca, contributes, hu], Or.inr hlt⟩
    next hu =>
      obtain rfl : (⟨c₀.h, c₀.vals ++ [.vRest (toks.drop idx)]⟩ : Cand) = c := by
        simpa using hstep
      exact ⟨rfl, by simp [hca, contributes, hu], Or.inr hlt⟩
    next t2 hu =>
      obtain rfl : c₀ = c := by simpa using hstep
      exact ⟨rfl, by simp [hca, contributes, hu], Or.inr hlt⟩


theorem scanPos_kept {env : Env} {toks : List String} {idx : Nat}
    {arg : String} :
    ∀ {cands out : List Cand}, scanPos env toks idx arg cands = .ok out →
      ∀ c ∈ out, ∃ c₀ ∈ cands, stepOne env toks idx arg c₀ = .ok (some c) := by
  intro cands
  induction cands with
  | nil =>
      intro out h c hc
      rw [scanPos_nil] at h
      obtain rfl : ([] : List Cand) = out := by simpa using h
      simp at hc
  | cons c₀ cs ih =>
      intro out h c hc
      rw [scanPos_cons] at h
      split at h
      next m hs => cases h
      next hs =>
          obtain ⟨c₁, hm, hstep⟩ := ih h c hc
          exact ⟨c₁, by simp [hm], hstep⟩
      next c' hs =>
          cases hrec : scanPos env toks idx arg cs with
          | error m => rw [hrec] at h; cases h
          | ok out' =>
              rw [hrec] at h
              obtain rfl : c' :: out' = out := by simpa [Except.map] using h
              rcases List.mem_cons.mp hc with rfl | hc'
              · exact ⟨c₀, by simp, hs⟩
              · obtain ⟨c₁, hm, hstep⟩ := ih hrec c hc'
                exact ⟨c₁, by simp [hm], hstep⟩

theorem scanPos_sublist {env : Env} {toks : List String} {idx : Nat}
    {arg : String} :
    ∀ {cands out : List Cand}, scanPos env toks idx arg cands = .ok out →
      List.Sublist (out.map Cand.h) (cands.map Cand.h) := by
  intro cands
  induction cands with
  | nil =>
      intro out h
      rw [scanPos_nil] at h
      obtain rfl : ([] : List Cand) = out := by simpa using h
      simp
  | cons c₀ cs ih =>
      intro out h
      rw [scanPos_cons] at h
      split at h
      next m hs => cases h
      next hs => exact (ih h).trans (by simp)
      next c' hs =>
          cases hrec : scanPos env toks idx arg cs with
          | error m => rw [hrec] at h; cases h
          | ok out' =>
              rw [hrec] at h
              obtain rfl : c' :: out' = out := by simpa [Except.map] using h
              have hh : c'.h = c₀.h := (stepOne_kept hs).1
              simpa [hh] using List.Sublist.cons₂ c₀.h (ih hrec)

theorem scanFrom_sublist {env : Env} {toks : List String} :
    ∀ (toks' : List String) (idx : Nat) {cands out : List Cand},
      scanFrom env toks idx toks' cands = .ok out →
      List.Sublist (out.map Cand.h) (cands.map Cand.h) := by
  intro toks'
  induction toks' with
  | nil =>
      intro idx cands out h
      rw [scanFrom_nil] at h
      obtain rfl : cands = out := by simpa using h
      exact List.Sublist.refl _
  | cons a rest ih =>
      intro idx cands out h
      rw [scanFrom_cons] at h
      split at h
      next m hs => cases h
      next mid hs => exact (ih (idx + 1) h).trans (scanPos_sublist hs)

theorem scanFrom_mem {env : Env} {toks : List String} :
    ∀ (toks' : List String) (idx : Nat) {cands out : List Cand},
      scanFrom env toks idx toks' cands = .ok out →
      ∀ c ∈ out, ∃ c₀ ∈ cands, c.h = c₀.h
        ∧ c.vals.length = c₀.vals.length + contribFrom c.h idx toks'.length
        ∧ (toks' = [] ∧ c = c₀ ∨ c.h.ignoreArgsSize = true
            ∨ idx + toks'.length ≤ c.h.args.length) := by
  intro toks'
  induction toks' with
  | nil =>
      intro idx cands out h c hc
      rw [scanFrom_nil] at h
      obtain rfl : cands = out := by simpa using h
      exact ⟨c, hc, rfl, by simp [contribFrom], Or.inl ⟨rfl, rfl⟩⟩
  | cons a rest ih =>
      intro idx cands out h c hc
      rw [scanFrom_cons] at h
      split at h
      next m hs => cases h
      next mid hs =>
          obtain ⟨cm, hcmm, hh, hlen, hdisj⟩ := ih (idx + 1) h c hc
          obtain ⟨c₀, hc₀m, hstep⟩ := scanPos_kept hs cm hcmm
          obtain ⟨hh0, hlen0, hkeep⟩ := stepOne_kept hstep
          have hh' : c.h = c₀.h := hh.trans hh0
          refine ⟨c₀, hc₀m, hh', ?_, ?_⟩
          · calc c.vals.length
                = cm.vals.length + contribFrom c.h (idx + 1) rest.length := hlen
              _ = (c₀.vals.length + (if contributesAt c₀.h idx then 1 else 0))
                    + contribFrom c₀.h (idx + 1) rest.length := by
                  rw [hlen0, hh']
              _ = c₀.vals.length + contribFrom c.h idx (a :: rest).length := by
                  rw [show contribFrom c.h idx (a :: rest).length =
                    (if contributesAt c.h idx then 1 else 0)
                      + contribFrom c.h (idx + 1) rest.length from rfl, hh']
                  omega
          · rcases hdisj with ⟨hrest, rfl⟩ | hign | hle
            · subst hrest
              rcases hkeep with hi | hlt
              · exact Or.inr (Or.inl (hh ▸ hh0 ▸ hi))
              · refine Or.inr (Or.inr ?_)
                rw [hh.trans hh0]
                simpa using hlt
            · exact Or.inr (Or.inl hign)
            · refine Or.inr (Or.inr ?_)
              simp only [List.length_cons]
              omega

/-! ### Claim C2 -/

/-- C2: a typed-parser failure aborts the whole resolution call with that
parser's message.  Part 1: a position of the scan aborts at the first
candidate whose parser fails, before any later live candidate is examined,
whatever those candidates would have matched.  Part 2: for any registry, a
scan failure is surfaced unchanged as the final `messageFailure`.  Part 3:
concretely, an entry-parser failure at position 1 of a `command …` input
ends the whole call with exactly that parser's message, whatever tokens
follow and although nine further live candidates stood at that position. -/
theorem claim_C2 :
    (∀ (env : Env) (toks : List String) (idx : Nat) (arg : String)
        (pre : List Cand) (c : Cand) (post : List Cand) (m : String),
      (∀ c' ∈ pre, ∃ o, stepOne env toks idx arg c' = .ok o) →
      stepOne env toks idx arg c = .error m →
      scanPos env toks idx arg (pre ++ c :: post) = .error m)
    ∧ (∀ (reg : List Handler) (env : Env) (toks : List String) (m : String),
      toks ≠ [] →
      scanFrom env toks 0 toks (initCands reg) = .error m →
      getCommandWith reg env toks = .messageFailure m)
    ∧ (∀ (env : Env) (x : String) (rest : List String) (m : String),
      runParser env .entry x = .error m →
      getCommand env ("command" :: x :: rest) = .messageFailure m) := by
  refine ⟨scanPos_abort, fun reg env toks m hne hscan =>
    getCommandWith_scan_error hne hscan, fun env x rest m hx => ?_⟩
  have h0 : scanPos env ("command" :: x :: rest) 0 "command"
      (initCands Handler.handlers) =
      .ok (initCands [hdl3, hdl4, hdl5, hdl6, hdl7, hdl8, hdl9, hdl10,
        hdl11, hdl12]) := rfl
  have h1 : scanPos env ("command" :: x :: rest) 1 x
      (initCands [hdl3, hdl4, hdl5, hdl6, hdl7, hdl8, hdl9, hdl10, hdl11,
        hdl12]) = .error m :=
    scanPos_cons_error _ _ _ _ _ _ (stepOne_parser_error rfl hx)
  refine getCommandWith_scan_error (by simp) ?_
  rw [scanFrom_cons_ok _ _ _ _ _ _ h0]
  exact scanFrom_cons_error _ _ _ _ _ _ h1

/-- C2 witness: with only `ping` defined, `command nosuch info` fails with
the entry parser's message for `nosuch`, although the pattern of signature
4 (`command (entry) info`) matches the surrounding tokens. -/
theorem claim_C2_witness :
    getCommand env0 ["command", "nosuch", "info"] =
      .messageFailure (entryMsg "nosuch") :=
  claim_C2.2.2 env0 "nosuch" ["info"] (entryMsg "nosuch") rfl

/-! ### Claim C1 -/

/-- C1 counterexample: with the command entry `ping` defined, the input
`command ping addalias` ends exactly at signature 6's `list[str]` rest
position, yet resolution does not succeed with an empty list: the
post-scan arity check removes the candidate (`list[str]` is not a union
with `None`), so the call fails with `incomplete` naming signature 6. -/
theorem claim_C1_counterexample :
    getCommand env0 ["command", "ping", "addalias"] = .incomplete 6 := by
  decide

/-- C1 amended: for the registered signatures ending in a rest capture
(6, `command … addAlias`, and 7, `command … removeAlias`), whenever the
preceding elements match and at least one token remains at the rest
position, resolution succeeds and the rest parameter receives exactly the
(nonempty) remaining suffix, however long; the candidate is never
eliminated during the scan for positions at or past the rest capture. -/
theorem claim_C1 :
    ∀ (env : Env) (e : String) (v : Value) (r : String) (rest : List String),
      runParser env .entry e = .ok v →
      getCommand env ("command" :: e :: "addAlias" :: r :: rest) =
          .resolved 6 [("name", v), ("alias", .vRest (r :: rest))]
        ∧ getCommand env ("command" :: e :: "removeAlias" :: r :: rest) =
          .resolved 7 [("name", v), ("alias", .vRest (r :: rest))] :=
  fun env e v r rest hx =>
    ⟨restCaptureResolve env e v r rest hx "addAlias" hdl6 rfl rfl rfl,
     restCaptureResolve env e v r rest hx "removeAlias" hdl7 rfl rfl rfl⟩

/-- C1 witness: with `ping` defined, `command ping addAlias p pp` resolves
to signature 6 with `alias = ["p", "pp"]`, and the `removeAlias` twin
likewise. -/
theorem claim_C1_witness :
    getCommand env0 ["command", "ping", "addAlias", "p", "pp"] =
        .resolved 6 [("name", .vEntry "ping"), ("alias", .vRest ["p", "pp"])]
      ∧ getCommand env0 ["command", "ping", "removeAlias", "p", "pp"] =
        .resolved 7 [("name", .vEntry "ping"), ("alias", .vRest ["p", "pp"])] :=
  claim_C1 env0 "ping" (.vEntry "ping") "p" ["pp"] rfl

/-! ### Claim C5 -/

/-- C5: binding semantics.  Part 1: the code's binder equals the spec-side
indexed binder: each declared parameter in order receives the next
unconsumed positional value when one exists, else null when its type is
nullable, else its declared default, else binding fails.  Part 2: for any
registry, a binding failure of the winning candidate surfaces as
`incomplete` naming the winning signature.  Part 3: omitting both trailing
tokens of `addCommand`, whose positions are nullable (`str | None`),
still resolves with those parameters bound to null. -/
theorem claim_C5 :
    (∀ (ps : List Param) (vs : List Value),
      getHandlerParams ps vs = bindSpec ps vs)
    ∧ (∀ (reg : List Handler) (env : Env) (toks : List String)
        (cands : List Cand) (w : Cand) (ws : List Cand),
      toks ≠ [] →
      scanFrom env toks 0 toks (initCands reg) = .ok cands →
      cands.filter (fun c => arityOk toks.length c.h) = w :: ws →
      getHandlerParams w.h.params w.vals = none →
      getCommandWith reg env toks = .incomplete w.h.hid)
    ∧ (∀ (env : Env) (nm : String),
      getCommand env ["addcommand", nm] =
        .resolved 1 [("name", .vStr nm), ("handler_id", .vNone),
          ("category", .vNone)]) := by
  refine ⟨getHandlerParams_eq_bindSpec, ?_, ?_⟩
  · intro reg env toks cands w ws hne hscan hfilter hbind
    rw [getCommandWith_scan_ok hne hscan, postScan_winner hfilter, hbind]
  · intro env nm
    have h0 : scanPos env ["addcommand", nm] 0 "addcommand"
        (initCands Handler.handlers) = .ok [⟨hdl1, []⟩] := rfl
    have h1 : scanPos env ["addcommand", nm] 1 nm [⟨hdl1, []⟩] =
        .ok [⟨hdl1, [.vStr nm]⟩] := by
      rw [scanPos_cons_keep _ _ _ _ _ _ (stepOne_str
        (show (⟨hdl1, []⟩ : Cand).h.args[1]? = some .strT from rfl) rfl),
        scanPos_nil]
      rfl
    have h0' : scanFrom env ["addcommand", nm] 0 ["addcommand", nm]
        (initCands Handler.handlers) = .ok [⟨hdl1, [.vStr nm]⟩] := by
      rw [scanFrom_cons_ok _ _ _ _ _ _ h0, scanFrom_cons_ok _ _ _ _ _ _ h1]
      rfl
    rw [show getCommand env ["addcommand", nm] =
        getCommandWith Handler.handlers env ["addcommand", nm] from rfl,
      getCommandWith_scan_ok (by simp) h0']
    exact postScan_single_winner rfl rfl

/-- C5 witness: part 2 applied to a one-signature registry whose declared
parameter is neither nullable nor defaulted: `a` matches the pattern but
binding fails, so the call ends `incomplete` naming that signature. -/
theorem claim_C5_witness :
    getCommandWith [⟨99, [.lit "a"], [prm "q" false]⟩] env0 ["a"] =
      .incomplete 99 :=
  claim_C5.2.1 [⟨99, [.lit "a"], [prm "q" false]⟩] env0 ["a"]
    [⟨⟨99, [.lit "a"], [prm "q" false]⟩, []⟩]
    ⟨⟨99, [.lit "a"], [prm "q" false]⟩, []⟩ [] (by simp) rfl rfl rfl

/-! ### Claims C7 and C4 -/

/-- Inversion of the post-scan decision for a resolved outcome: there is a
first arity-check survivor, it carries the resolved id, and its collected
values bound successfully. -/
theorem postScan_resolved_inv {n : Nat} {cands : List Cand} {i : Nat}
    {kw : List (String × Value)} (h : postScan n cands = .resolved i kw) :
    ∃ w ws, cands.filter (fun c => arityOk n c.h) = w :: ws
      ∧ w.h.hid = i ∧ getHandlerParams w.h.params w.vals = some kw := by
  unfold postScan at h
  split at h
  · cases h
  next hne =>
    split at h
    next hf => split at h <;> cases h
    next w ws hf =>
      split at h
      next hb => cases h
      next kw2 hb =>
        obtain ⟨rfl, rfl⟩ : w.h.hid = i ∧ kw2 = kw := by
          injection h with h1 h2
          exact ⟨h1, h2⟩
        exact ⟨w, ws, hf, rfl, hb⟩

/-- Registration indices identify the registered signatures uniquely. -/
theorem handlers_hid_inj :
    ∀ h1 ∈ Handler.handlers, ∀ h2 ∈ Handler.handlers,
      h1.hid = h2.hid → h1 = h2 := by decide

/-- C7: over-long input eliminates every candidate without a trailing rest
capture.  Part 1: for any registry, a candidate surviving the scan either
has `ignore_args_size` or a pattern at least as long as the input.
Part 2: on the actual registry, a registered signature without a trailing
rest capture can never be the resolved winner of an input longer than its
pattern. -/
theorem claim_C7 :
    (∀ (reg : List Handler) (env : Env) (toks : List String)
        (cands : List Cand) (c : Cand),
      scanFrom env toks 0 toks (initCands reg) = .ok cands →
      c ∈ cands →
      c.h.ignoreArgsSize = true ∨ toks.length ≤ c.h.args.length)
    ∧ (∀ (env : Env) (toks : List String) (h : Handler)
        (kw : List (String × Value)),
      h ∈ Handler.handlers → h.ignoreArgsSize = false →
      h.args.length < toks.length →
      getCommand env toks ≠ .resolved h.hid kw) := by
  have part1 : ∀ (reg : List Handler) (env : Env) (toks : List String)
      (cands : List Cand) (c : Cand),
      scanFrom env toks 0 toks (initCands reg) = .ok cands →
      c ∈ cands →
      c.h.ignoreArgsSize = true ∨ toks.length ≤ c.h.args.length := by
    intro reg env toks cands c hscan hc
    obtain ⟨c₀, _, _, _, hdisj⟩ := scanFrom_mem toks 0 hscan c hc
    rcases hdisj with ⟨htoks, _⟩ | hi | hle
    · subst htoks; right; simp
    · exact Or.inl hi
    · right; simpa using hle
  refine ⟨part1, ?_⟩
  intro env toks h kw hmem hign hlen hres
  unfold getCommand getCommandWith at hres
  split at hres
  · cases hres
  next hne =>
    split at hres
    next m hs => cases hres
    next cands hs =>
      obtain ⟨w, ws, hf, hhid, _⟩ := postScan_resolved_inv hres
      have hwmem : w ∈ cands := by
        have : w ∈ cands.filter (fun c => arityOk toks.length c.h) := by
          rw [hf]; simp
        exact List.mem_of_mem_filter this
      have hwreg : w.h ∈ Handler.handlers := by
        have hsub := scanFrom_sublist toks 0 hs
        have : w.h ∈ (initCands Handler.handlers).map Cand.h :=
          hsub.subset (List.mem_map_of_mem Cand.h hwmem)
        simpa [initCands, List.map_map, Function.comp_def] using this
      have hwh : w.h = h := handlers_hid_inj w.h hwreg h hmem hhid
      rcases part1 Handler.handlers env toks cands w hs hwmem with hi | hle
      · rw [hwh] at hi; exact absurd hi (by simp [hign])
      · rw [hwh] at hle; omega

/-- C7 witness: `listcommands x` (one token beyond signature 0, which has
no rest capture) can never resolve to signature 0. -/
theorem claim_C7_witness :
    getCommand env0 ["listcommands", "x"] ≠ .resolved 0 [] :=
  claim_C7.2 env0 ["listcommands", "x"] hdl0 [] (by decide) (by decide)
    (by decide)

/-- C4: the winner is the first arity-check survivor, for any registry and
any input: when the survivor list is `w :: ws` (so in particular whenever
two or more signatures survive scan and arity check), the outcome is
decided by `w` alone — `resolved` with `w`'s id on binding success, else
`incomplete` with `w`'s id — and the survivor list preserves registration
order (it is a sublist of the registry). -/
theorem claim_C4 :
    ∀ (reg : List Handler) (env : Env) (toks : List String)
      (cands : List Cand) (w : Cand) (ws : List Cand),
      toks ≠ [] →
      scanFrom env toks 0 toks (initCands reg) = .ok cands →
      cands.filter (fun c => arityOk toks.length c.h) = w :: ws →
      ((∃ kw, getCommandWith reg env toks = .resolved w.h.hid kw)
        ∨ getCommandWith reg env toks = .incomplete w.h.hid)
      ∧ List.Sublist ((w :: ws).map Cand.h) reg := by
  intro reg env toks cands w ws hne hscan hfilter
  constructor
  · rw [getCommandWith_scan_ok hne hscan, postScan_winner hfilter]
    cases hb : getHandlerParams w.h.params w.vals with
    | none => right; rfl
    | some kw => left; exact ⟨kw, rfl⟩
  · have h1 : List.Sublist (cands.map Cand.h)
        ((initCands reg).map Cand.h) := scanFrom_sublist toks 0 hscan
    have h2 : List.Sublist ((w :: ws).map Cand.h) (cands.map Cand.h) := by
      rw [← hfilter]
      exact List.Sublist.map Cand.h (List.filter_sublist cands)
    have h3 : (initCands reg).map Cand.h = reg := by
      simp only [initCands, List.map_map]
      exact List.map_id reg
    exact h2.trans (h3 ▸ h1)

/-- C4 witness: two signatures with the identical pattern `a`; on input
`a` both survive, and the outcome is decided by the first-registered one
(id 100), the survivor list being a registration-order sublist. -/
theorem claim_C4_witness :
    ((∃ kw, getCommandWith [⟨100, [.lit "a"], []⟩, ⟨101, [.lit "a"], []⟩]
        env0 ["a"] = .resolved 100 kw)
      ∨ getCommandWith [⟨100, [.lit "a"], []⟩, ⟨101, [.lit "a"], []⟩]
        env0 ["a"] = .incomplete 100)
    ∧ List.Sublist
        ([⟨⟨100, [.lit "a"], []⟩, []⟩, (⟨⟨101, [.lit "a"], []⟩, []⟩ : Cand)].map
          Cand.h)
        [⟨100, [.lit "a"], []⟩, ⟨101, [.lit "a"], []⟩] :=
  claim_C4 [⟨100, [.lit "a"], []⟩, ⟨101, [.lit "a"], []⟩] env0 ["a"]
    [⟨⟨100, [.lit "a"], []⟩, []⟩, ⟨⟨101, [.lit "a"], []⟩, []⟩]
    ⟨⟨100, [.lit "a"], []⟩, []⟩ [⟨⟨101, [.lit "a"], []⟩, []⟩]
    (by simp) rfl rfl

theorem contribFrom_eq (h : Handler) : ∀ (n idx : Nat),
    contribFrom h idx n =
      (((h.args.drop idx).take n).filter contributes).length := by
  intro n
  induction n with
  | zero => intro idx; simp [contribFrom]
  | succ n ih =>
      intro idx
      rw [show contribFrom h idx (n + 1) =
        (if contributesAt h idx then 1 else 0) + contribFrom h (idx + 1) n
        from rfl, ih (idx + 1)]
      cases hargs : h.args[idx]? with
      | none =>
          have hge : h.args.length ≤ idx := by
            rcases Nat.lt_or_ge idx h.args.length with hlt | hge
            · rw [List.getElem?_eq_getElem hlt] at hargs; cases hargs
            · exact hge
          rw [List.drop_eq_nil_of_le hge,
            List.drop_eq_nil_of_le (le_trans hge (Nat.le_succ _))]
          simp [contributesAt, hargs]
      | some t =>
          have hlt : idx < h.args.length := by
            rcases Nat.lt_or_ge idx h.args.length with hlt | hge
            · exact hlt
            · rw [List.getElem?_eq_none hge] at hargs; cases hargs
          have hget : h.args[idx] = t := by
            rw [List.getElem?_eq_getElem hlt] at hargs
            injection hargs
          rw [List.drop_eq_getElem_cons hlt, hget, List.take_succ_cons,
            List.filter_cons]
          have hca : contributesAt h idx = contributes t := by
            simp [contributesAt, hargs]
          rw [hca]
          cases contributes t <;> simp <;> omega

/-- Alignment of a pattern with the declared callback parameters: each
value-contributing pattern element corresponds to one declared parameter
in order, and a parameter at a union-with-`None` position is itself
annotated nullable. -/
def alignedB : List ParamTyp → List Param → Bool
  | [], ps => ps.isEmpty
  | t :: ts, ps =>
      if contributes t then
        match ps with
        | [] => false
        | p :: ps2 => (!nullableTyp t || p.nullable) && alignedB ts ps2
      else alignedB ts ps

theorem alignedB_drop_nullable :
    ∀ (args : List ParamTyp) (params : List Param) (n : Nat),
      alignedB args params = true → (args.drop n).all nullableTyp = true →
      ∀ p ∈ params.drop (((args.take n).filter contributes).length),
        p.nullable = true := by
  intro args
  induction args with
  | nil =>
      intro params n hal _ p hp
      have : params = [] := by
        cases params with
        | nil => rfl
        | cons q qs => simp [alignedB] at hal
      subst this
      simp at hp
  | cons t ts ih =>
      intro params n hal hdrop p hp
      cases n with
      | zero =>
          have hall := List.all_eq_true.mp hdrop
          have hnt : nullableTyp t = true := hall t (by simp)
          have hts : ts.all nullableTyp = true := by
            rw [List.all_eq_true]
            intro x hx
            exact hall x (by simp [hx])
          rw [List.take_zero, List.filter_nil, List.length_nil,
            List.drop_zero] at hp
          unfold alignedB at hal
          by_cases hct : contributes t
          · rw [if_pos hct] at hal
            cases params with
            | nil => cases hal
            | cons q qs =>
                rcases (Bool.and_eq_true _ _).mp hal with ⟨hq, hqs⟩
                rcases List.mem_cons.mp hp with rfl | hp2
                · rcases (Bool.or_eq_true _ _).mp hq with hq' | hq'
                  · rw [hnt] at hq'; cases hq'
                  · exact hq'
                · have := ih qs 0 hqs (by simpa using hts) p
                  simp at this
                  exact this hp2
          · rw [if_neg hct] at hal
            have := ih params 0 hal (by simpa using hts) p
            simp at this
            exact this hp
      | succ n =>
          rw [List.drop_succ_cons] at hdrop
          rw [List.take_succ_cons, List.filter_cons] at hp
          unfold alignedB at hal
          by_cases hct : contributes t
          · rw [if_pos hct] at hal
            cases params with
            | nil => cases hal
            | cons q qs =>
                rcases (Bool.and_eq_true _ _).mp hal with ⟨_, hqs⟩
                rw [if_pos hct] at hp
                rw [List.length_cons, List.drop_succ_cons] at hp
                exact ih qs n hqs hdrop p hp
          · rw [if_neg hct] at hal
            rw [if_neg hct] at hp
            exact ih params n hal hdrop p hp

theorem bindsWhenDropNullable :
    ∀ (ps : List Param) (vs : List Value),
      (∀ p ∈ ps.drop vs.length, p.nullable = true ∨ p.dflt.isSome = true) →
      (getHandlerParams ps vs).isSome = true := by
  intro ps
  induction ps with
  | nil => intro vs _; simp [getHandlerParams]
  | cons p ps ih =>
      intro vs hnull
      cases vs with
      | cons v vs2 =>
          rw [show getHandlerParams (p :: ps) (v :: vs2) =
            (getHandlerParams ps vs2).map (fun kw => (p.pname, v) :: kw)
            from rfl]
          have hr := ih vs2 (by simpa using hnull)
          cases hgp : getHandlerParams ps vs2 with
          | none => rw [hgp] at hr; cases hr
          | some kw => rfl
      | nil =>
          have hp : p.nullable = true ∨ p.dflt.isSome = true :=
            hnull p (by simp)
          rw [show getHandlerParams (p :: ps) [] =
              (if p.nullable then
                (getHandlerParams ps []).map
                  (fun kw => (p.pname, Value.vNone) :: kw)
              else
                match p.dflt with
                | some d => (getHandlerParams ps []).map
                    (fun kw => (p.pname, d) :: kw)
                | none => none) from rfl]
          have hrec := ih [] (by
            intro q hq
            exact hnull q (by
              simp only [List.length_nil, List.drop_zero] at hq ⊢
              exact List.mem_cons_of_mem p hq))
          by_cases hn : p.nullable
          · rw [if_pos hn]
            cases hgp : getHandlerParams ps [] with
            | none => rw [hgp] at hrec; cases hrec
            | some kw => rfl
          · rw [if_neg hn]
            rcases hp with hp | hp
            · exact absurd hp hn
            · cases hd : p.dflt with
              | none => rw [hd] at hp; cases hp
              | some d =>
                  cases hgp : getHandlerParams ps [] with
                  | none => rw [hgp] at hrec; cases hrec
                  | some kw => rfl


/-- Every registered signature's pattern aligns with its declared callback
parameters: one parameter per value-contributing element, nullable at
union-with-`None` positions. -/
theorem registry_aligned :
    ∀ h ∈ Handler.handlers, alignedB h.args h.params = true := by decide

theorem initCands_mem {reg : List Handler} {c : Cand}
    (hc : c ∈ initCands reg) : c.h ∈ reg ∧ c.vals = [] := by
  obtain ⟨h, hh, rfl⟩ := List.mem_map.mp hc
  exact ⟨hh, rfl⟩

/-- On the actual registry, every arity-check survivor of a scan binds
successfully: its collected values line up with its declared parameters
and every parameter past them is nullable. -/
theorem registryWinnerBinds {env : Env} {toks : List String}
    {cands : List Cand}
    (hscan : scanFrom env toks 0 toks (initCands Handler.handlers) = .ok cands)
    {w : Cand} (hw : w ∈ cands) (har : arityOk toks.length w.h = true) :
    (getHandlerParams w.h.params w.vals).isSome = true := by
  obtain ⟨c₀, hc₀, hh, hlen, _⟩ := scanFrom_mem toks 0 hscan w hw
  obtain ⟨hreg, hvals0⟩ := initCands_mem hc₀
  rw [← hh] at hreg
  have hlen' : w.vals.length =
      ((w.h.args.take toks.length).filter contributes).length := by
    rw [hlen, hvals0, contribFrom_eq]
    simp
  apply bindsWhenDropNullable
  intro p hp
  left
  refine alignedB_drop_nullable w.h.args w.h.params toks.length
    (registry_aligned w.h hreg) har p ?_
  rw [← hlen']
  exact hp

/-- Inversion of the post-scan decision for an `incomplete` outcome, under
the assumption (true of the actual registry) that every arity-check
survivor binds: there is no survivor and exactly one arity-only
elimination, which carries the named id. -/
theorem postScan_incomplete_inv {n : Nat} {cands : List Cand} {i : Nat}
    (h : postScan n cands = .incomplete i)
    (hbind : ∀ w ∈ cands, arityOk n w.h = true →
      (getHandlerParams w.h.params w.vals).isSome = true) :
    cands.filter (fun c => arityOk n c.h) = []
      ∧ ∃ c, cands.filter (fun c => ! arityOk n c.h) = [c] ∧ c.h.hid = i := by
  unfold postScan at h
  split at h
  · cases h
  next hne =>
    split at h
    next hf =>
      split at h
      next e hf2 =>
          injection h with h2
          exact ⟨hf, e, hf2, h2⟩
      next hf2 => cases h
    next w ws hf =>
      split at h
      next hb =>
          exfalso
          have hw : w ∈ cands := by
            have hmem : w ∈ cands.filter (fun c => arityOk n c.h) := by
              rw [hf]; simp
            exact List.mem_of_mem_filter hmem
          have har : arityOk n w.h = true := by
            have : w ∈ cands.filter (fun c => arityOk n c.h) := by
              rw [hf]; simp
            simpa using List.of_mem_filter this
          have := hbind w hw har
          rw [hb] at this
          cases this
      next kw hb => cases h


/-- C3: failure taxonomy without a typed-parser failure.  The outcome is
`incomplete i` exactly when the scan succeeds, no candidate passes the
post-scan arity check, and exactly one candidate was removed by an
arity-only elimination, that candidate carrying id `i` (this uses that on
the actual registry a surviving winner always binds, so `incomplete` never
arises from binding); empty input yields `notFound`; and any failing
outcome that is neither a message failure nor `incomplete` is
`notFound`. -/
theorem claim_C3 :
    ∀ (env : Env) (toks : List String),
      (∀ i : Nat, getCommand env toks = .incomplete i ↔
        ∃ cands c,
          scanFrom env toks 0 toks (initCands Handler.handlers) = .ok cands
          ∧ cands.filter (fun c => arityOk toks.length c.h) = []
          ∧ cands.filter (fun c => ! arityOk toks.length c.h) = [c]
          ∧ c.h.hid = i)
      ∧ (toks = [] → getCommand env toks = .notFound)
      ∧ ((∀ i kw, getCommand env toks ≠ .resolved i kw) →
         (∀ m, getCommand env toks ≠ .messageFailure m) →
         (∀ i, getCommand env toks ≠ .incomplete i) →
         getCommand env toks = .notFound) := by
  intro env toks
  refine ⟨?_, ?_, ?_⟩
  · intro i
    constructor
    · intro hres
      by_cases hne : toks = []
      · exfalso
        subst hne
        rw [show getCommand env [] = .notFound from rfl] at hres
        cases hres
      · cases hs : scanFrom env toks 0 toks (initCands Handler.handlers) with
        | error m =>
            rw [show getCommand env toks =
              getCommandWith Handler.handlers env toks from rfl,
              getCommandWith_scan_error hne hs] at hres
            cases hres
        | ok cands =>
            rw [show getCommand env toks =
              getCommandWith Handler.handlers env toks from rfl,
              getCommandWith_scan_ok hne hs] at hres
            obtain ⟨hsurv, c, hone, hhid⟩ := postScan_incomplete_inv hres
              (fun w hw har => registryWinnerBinds hs hw har)
            exact ⟨cands, c, hs ▸ rfl, hsurv, hone, hhid⟩
    · rintro ⟨cands, c, hs, hsurv, hone, hhid⟩
      by_cases hne : toks = []
      · exfalso
        subst hne
        rw [scanFrom_nil] at hs
        obtain rfl : initCands Handler.handlers = cands := by simpa using hs
        have h33 : ((initCands Handler.handlers).filter
            (fun c => ! arityOk 0 c.h)).length = 33 := by decide
        simp only [List.length_nil] at hone
        rw [hone] at h33
        simp at h33
      · have hcne : cands ≠ [] := by
          intro hc
          subst hc
          simp at hone
        rw [show getCommand env toks =
          getCommandWith Handler.handlers env toks from rfl,
          getCommandWith_scan_ok hne hs]
        unfold postScan
        rw [if_neg hcne, hsurv, hone]
        subst hhid
        rfl
  · intro h
    subst h
    rfl
  · intro h1 h2 h3
    cases hres : getCommand env toks with
    | resolved i kw => exact absurd hres (h1 i kw)
    | messageFailure m => exact absurd hres (h2 m)
    | incomplete i => exact absurd hres (h3 i)
    | notFound => rfl

/-- C3 witness: on `command ping addalias` with `ping` defined, the
`incomplete 6` outcome is equivalent to the no-survivor,
one-arity-elimination characterization. -/
theorem claim_C3_witness :
    ∃ cands c,
      scanFrom env0 ["command", "ping", "addalias"] 0
          ["command", "ping", "addalias"] (initCands Handler.handlers) =
        .ok cands
      ∧ cands.filter (fun c => arityOk 3 c.h) = []
      ∧ cands.filter (fun c => ! arityOk 3 c.h) = [c]
      ∧ c.h.hid = 6 :=
  ((claim_C3 env0 ["command", "ping", "addalias"]).1 6).mp (by decide)

/-! ### Claim C9 -/

/-- The process-wide mutable registry cell (`Handler.handlers` in the
Python module) threaded through a call explicitly. -/
structure RegState where
  handlers : List Handler
deriving DecidableEq, Repr

/-- `get_command` as a state transformer over the registry cell: line 86
(`handlers = list(Handler.handlers)`) reads the cell into a fresh per-call
candidate list; every later mutation (`handlers.remove`, `_args`) acts on
that per-call state, and nothing is ever written back to the cell or to
any `Handler`'s `args`, `handler` or `docs` fields. -/
def getCommandMut (st : RegState) (env : Env) (toks : List String) :
    RegState × CmdResult :=
  let hs := st.handlers
  (st, getCommandWith hs env toks)

/-- C9: resolution is side-effect-free with respect to the registry: the
registry cell after a call — whatever its outcome — is exactly the input
cell, with every registered signature intact, and the outcome is a pure
function of registry, environment and tokens. -/
theorem claim_C9 :
    ∀ (st : RegState) (env : Env) (toks : List String),
      (getCommandMut st env toks).1 = st
      ∧ (getCommandMut st env toks).1.handlers = st.handlers
      ∧ (getCommandMut st env toks).2 = getCommandWith st.handlers env toks :=
  fun st env toks => ⟨rfl, rfl, rfl⟩

/-! ### Claim C10 -/

/-- Modelled from the spec: `ctx.arguments.get(default=...)` of the
external `dncore` `Arguments` class — absent from this repository —
returns the first token, or the given default when no token is present
(spec §6: input is an ordered sequence of already-tokenized strings). -/
def argumentsGet (toks : List String) (dflt : String) : String :=
  toks.headD dflt

/-- Observable behaviour of the public entry point. -/
inductive PluginAction where
  | helpListing
  | engine (r : CmdResult)
deriving DecidableEq, Repr

/-- `CommandConfiguratorPlugin.cmd_cconf` (plugin.py lines 72-81),
parameterised by the registry: when the first token equals `"help"`
(case-sensitively, against `""` when absent) the fixed help listing is
sent and the resolver is never invoked; otherwise the resolver runs. -/
def cmdCconfWith (reg : List Handler) (env : Env) (toks : List String) :
    PluginAction :=
  if argumentsGet toks "" = "help" then .helpListing
  else .engine (getCommandWith reg env toks)

/-- The entry point over the registry actually built by `mgrcmd.py`. -/
def cmdCconf (env : Env) (toks : List String) : PluginAction :=
  cmdCconfWith Handler.handlers env toks

/-- C10 counterexample: a registered signature whose first literal is
`help` is not unreachable through the entry point: the help interception
compares case-sensitively while literals match case-insensitively, so the
input `Help` passes the interception and resolves that signature. -/
theorem claim_C10_counterexample :
    cmdCconfWith [⟨0, [.lit "help"], []⟩] env0 ["Help"] =
      .engine (.resolved 0 []) := by decide

/-- C10 amended: if the first input token is exactly `help` (compared
case-sensitively, against the empty string when no token is present), the
fixed help listing is sent and the resolution engine is never invoked;
conversely every engine outcome comes from an input whose first token is
not exactly `help`.  A registered signature whose first literal is `help`
is therefore unreachable only by inputs whose first token is exactly
`help`; it remains reachable through other casings such as `Help`. -/
theorem claim_C10 :
    (∀ (reg : List Handler) (env : Env) (toks : List String),
      argumentsGet toks "" = "help" → cmdCconfWith reg env toks = .helpListing)
    ∧ (∀ (reg : List Handler) (env : Env) (toks : List String) (r : CmdResult),
      cmdCconfWith reg env toks = .engine r →
      argumentsGet toks "" ≠ "help" ∧ r = getCommandWith reg env toks) := by
  constructor
  · intro reg env toks h
    unfold cmdCconfWith
    rw [if_pos h]
  · intro reg env toks r h
    unfold cmdCconfWith at h
    by_cases hh : argumentsGet toks "" = "help"
    · rw [if_pos hh] at h
      cases h
    · rw [if_neg hh] at h
      injection h with h2
      exact ⟨hh, h2.symm⟩

/-- C10 witness: a `help`-first input over the actual registry produces
the help listing without invoking the resolver. -/
theorem claim_C10_witness :
    cmdCconf env0 ["help", "anything"] = .helpListing :=
  claim_C10.1 Handler.handlers env0 ["help", "anything"] rfl

/-- The candidate identity and collected-value count, which together with
the environment determine every elimination decision. -/
def candRel (c c' : Cand) : Prop :=
  c.h = c'.h ∧ c.vals.length = c'.vals.length

/-- Outcome with the bound argument values erased: constructor, signature
id and failure message survive. -/
def resultShape : CmdResult → CmdResult
  | .resolved i _ => .resolved i []
  | r => r

theorem runParser_lower_congr (env : Env) (p : ParserKind) {t t' : String}
    (h : strLower t = strLower t') : runParser env p t = runParser env p t' := by
  cases p <;> (unfold runParser; rw [h])

theorem stepOne_oob {env : Env} {toks : List String} {idx : Nat}
    {arg : String} {c : Cand} (hargs : c.h.args[idx]? = none) :
    stepOne env toks idx arg c =
      if c.h.ignoreArgsSize then .ok (some c) else .ok none := by
  unfold stepOne
  rw [hargs]

theorem stepOne_lit_eq {env : Env} {toks : List String} {idx : Nat}
    {arg : String} {c : Cand} {t : ParamTyp} {text : String}
    (hargs : c.h.args[idx]? = some t) (hu : unwrapUnion t = .lit text) :
    stepOne env toks idx arg c =
      if strLower text = strLower arg then .ok (some c) else .ok none := by
  unfold stepOne
  rw [hargs]
  simp [hu]

theorem stepOne_parser_eq {env : Env} {toks : List String} {idx : Nat}
    {arg : String} {c : Cand} {t : ParamTyp} {p : ParserKind}
    (hargs : c.h.args[idx]? = some t) (hu : unwrapUnion t = .parser p) :
    stepOne env toks idx arg c =
      match runParser env p arg with
      | .error m => .error m
      | .ok v => .ok (some ⟨c.h, c.vals ++ [v]⟩) := by
  unfold stepOne
  rw [hargs]
  simp [hu]

theorem stepOne_union_keep {env : Env} {toks : List String} {idx : Nat}
    {arg : String} {c : Cand} {t t2 : ParamTyp}
    (hargs : c.h.args[idx]? = some t) (hu : unwrapUnion t = .unionNone t2) :
    stepOne env toks idx arg c = .ok (some c) := by
  unfold stepOne
  rw [hargs]
  simp [hu]

theorem stepOne_congr {env : Env} {toks toks' : List String} {idx : Nat}
    {arg arg' : String} (harg : strLower arg = strLower arg')
    {c c' : Cand} (hh : c.h = c'.h) (hlen : c.vals.length = c'.vals.length) :
    (∃ m, stepOne env toks idx arg c = .error m
        ∧ stepOne env toks' idx arg' c' = .error m)
    ∨ (stepOne env toks idx arg c = .ok none
        ∧ stepOne env toks' idx arg' c' = .ok none)
    ∨ (∃ d d', stepOne env toks idx arg c = .ok (some d)
        ∧ stepOne env toks' idx arg' c' = .ok (some d')
        ∧ candRel d d') := by
  have hargs' : c'.h.args[idx]? = c.h.args[idx]? := by rw [hh]
  cases hargs : c.h.args[idx]? with
  | none =>
      rw [hargs] at hargs'
      rw [stepOne_oob hargs, stepOne_oob hargs', hh]
      by_cases hi : c'.h.ignoreArgsSize
      · rw [if_pos hi, if_pos hi]
        exact Or.inr (Or.inr ⟨c, c', rfl, rfl, hh, hlen⟩)
      · rw [if_neg hi, if_neg hi]
        exact Or.inr (Or.inl ⟨rfl, rfl⟩)
  | some t =>
      rw [hargs] at hargs'
      cases hu : unwrapUnion t with
      | lit text =>
          rw [stepOne_lit_eq hargs hu, stepOne_lit_eq hargs' hu, harg]
          by_cases hcond : strLower text = strLower arg'
          · rw [if_pos hcond, if_pos hcond]
            exact Or.inr (Or.inr ⟨c, c', rfl, rfl, hh, hlen⟩)
          · rw [if_neg hcond, if_neg hcond]
            exact Or.inr (Or.inl ⟨rfl, rfl⟩)
      | parser p =>
          rw [stepOne_parser_eq hargs hu, stepOne_parser_eq hargs' hu,
            ← runParser_lower_congr env p harg]
          cases hr : runParser env p arg with
          | error m => exact Or.inl ⟨m, rfl, rfl⟩
          | ok v =>
              refine Or.inr (Or.inr ⟨⟨c.h, c.vals ++ [v]⟩,
                ⟨c'.h, c'.vals ++ [v]⟩, rfl, rfl, hh, ?_⟩)
              simp [hlen]
      | strT =>
          rw [stepOne_str hargs hu, stepOne_str hargs' hu]
          refine Or.inr (Or.inr ⟨_, _, rfl, rfl, hh, ?_⟩)
          simp [hlen]
      | restT =>
          rw [stepOne_rest hargs hu, stepOne_rest hargs' hu]
          refine Or.inr (Or.inr ⟨_, _, rfl, rfl, hh, ?_⟩)
          simp [hlen]
      | unionNone t2 =>
          rw [stepOne_union_keep hargs hu, stepOne_union_keep hargs' hu]
          exact Or.inr (Or.inr ⟨c, c', rfl, rfl, hh, hlen⟩)


theorem forall2_filter (R : Cand → Cand → Prop) (f : Cand → Bool)
    (hf : ∀ c c', R c c' → f c = f c') :
    ∀ {l l' : List Cand}, List.Forall₂ R l l' →
      List.Forall₂ R (l.filter f) (l'.filter f) := by
  intro l l' h
  induction h with
  | nil => exact List.Forall₂.nil
  | @cons a b as bs hab hrest ih =>
      rw [List.filter_cons, List.filter_cons, hf a b hab]
      by_cases hb : f b
      · rw [if_pos hb, if_pos hb]
        exact List.Forall₂.cons hab ih
      · rw [if_neg hb, if_neg hb]
        exact ih

theorem forall2_cases {R : Cand → Cand → Prop} {X Y : List Cand}
    (h : List.Forall₂ R X Y) :
    (X = [] ∧ Y = [])
    ∨ ∃ w w' ws ws', X = w :: ws ∧ Y = w' :: ws' ∧ R w w'
        ∧ List.Forall₂ R ws ws' := by
  cases h with
  | nil => exact Or.inl ⟨rfl, rfl⟩
  | cons hab hrest => exact Or.inr ⟨_, _, _, _, rfl, rfl, hab, hrest⟩

theorem scanPos_congr {env : Env} {toks toks' : List String} {idx : Nat}
    {arg arg' : String} (harg : strLower arg = strLower arg') :
    ∀ {l l' : List Cand}, List.Forall₂ candRel l l' →
      (∃ m, scanPos env toks idx arg l = .error m
          ∧ scanPos env toks' idx arg' l' = .error m)
      ∨ (∃ o o', scanPos env toks idx arg l = .ok o
          ∧ scanPos env toks' idx arg' l' = .ok o'
          ∧ List.Forall₂ candRel o o') := by
  intro l l' h
  induction h with
  | nil => exact Or.inr ⟨[], [], rfl, rfl, List.Forall₂.nil⟩
  | @cons a b as bs hab hrest ih =>
      rcases stepOne_congr harg hab.1 hab.2 with
        ⟨m, h1, h2⟩ | ⟨h1, h2⟩ | ⟨d, d', h1, h2, hdd⟩
      · exact Or.inl ⟨m, scanPos_cons_error _ _ _ _ _ _ h1,
          scanPos_cons_error _ _ _ _ _ _ h2⟩
      · rw [scanPos_cons_drop _ _ _ _ _ _ h1, scanPos_cons_drop _ _ _ _ _ _ h2]
        exact ih
      · rcases ih with ⟨m, ho, ho'⟩ | ⟨o, o', ho, ho', hrel⟩
        · refine Or.inl ⟨m, ?_, ?_⟩
          · rw [scanPos_cons_keep _ _ _ _ _ _ h1, ho]; rfl
          · rw [scanPos_cons_keep _ _ _ _ _ _ h2, ho']; rfl
        · refine Or.inr ⟨d :: o, d' :: o', ?_, ?_, List.Forall₂.cons hdd hrel⟩
          · rw [scanPos_cons_keep _ _ _ _ _ _ h1, ho]; rfl
          · rw [scanPos_cons_keep _ _ _ _ _ _ h2, ho']; rfl

theorem scanFrom_congr {env : Env} {toks toks' : List String} :
    ∀ (rem rem' : List String) (idx : Nat),
      rem.map strLower = rem'.map strLower →
      ∀ {l l' : List Cand}, List.Forall₂ candRel l l' →
      (∃ m, scanFrom env toks idx rem l = .error m
          ∧ scanFrom env toks' idx rem' l' = .error m)
      ∨ (∃ o o', scanFrom env toks idx rem l = .ok o
          ∧ scanFrom env toks' idx rem' l' = .ok o'
          ∧ List.Forall₂ candRel o o') := by
  intro rem
  induction rem with
  | nil =>
      intro rem' idx hmap l l' h
      cases rem' with
      | nil => exact Or.inr ⟨l, l', rfl, rfl, h⟩
      | cons b bs => simp at hmap
  | cons a as ih =>
      intro rem' idx hmap l l' h
      cases rem' with
      | nil => simp at hmap
      | cons b bs =>
          simp only [List.map_cons, List.cons.injEq] at hmap
          obtain ⟨hab, hasbs⟩ := hmap
          rcases scanPos_congr hab h with ⟨m, h1, h2⟩ | ⟨o, o', h1, h2, hrel⟩
          · exact Or.inl ⟨m, scanFrom_cons_error _ _ _ _ _ _ h1,
              scanFrom_cons_error _ _ _ _ _ _ h2⟩
          · rw [scanFrom_cons_ok _ _ _ _ _ _ h1, scanFrom_cons_ok _ _ _ _ _ _ h2]
            exact ih bs (idx + 1) hasbs hrel

theorem getHandlerParams_isSome_congr :
    ∀ (ps : List Param) {vs vs' : List Value}, vs.length = vs'.length →
      (getHandlerParams ps vs).isSome = (getHandlerParams ps vs').isSome := by
  intro ps
  induction ps with
  | nil => intro vs vs' _; rfl
  | cons p ps ih =>
      intro vs vs' h
      cases vs with
      | nil =>
          cases vs' with
          | nil => rfl
          | cons v' vs2' => cases h
      | cons v vs2 =>
          cases vs' with
          | nil => cases h
          | cons v' vs2' =>
              have h2 : vs2.length = vs2'.length := by simpa using h
              show (Option.map (fun kw => (p.pname, v) :: kw)
                  (getHandlerParams ps vs2)).isSome =
                (Option.map (fun kw => (p.pname, v') :: kw)
                  (getHandlerParams ps vs2')).isSome
              have hrec := ih h2
              cases hg : getHandlerParams ps vs2 with
              | none =>
                  rw [hg] at hrec
                  cases hg' : getHandlerParams ps vs2' with
                  | none => rfl
                  | some kw => rw [hg'] at hrec; cases hrec
              | some kw =>
                  rw [hg] at hrec
                  cases hg' : getHandlerParams ps vs2' with
                  | none => rw [hg'] at hrec; cases hrec
                  | some kw' => rfl

theorem postScan_congr {n : Nat} :
    ∀ {l l' : List Cand}, List.Forall₂ candRel l l' →
      resultShape (postScan n l) = resultShape (postScan n l') := by
  intro l l' h
  have hsurv := forall2_filter candRel (fun c => arityOk n c.h)
    (fun c c' hcc => by show arityOk n c.h = arityOk n c'.h; rw [hcc.1]) h
  have herr := forall2_filter candRel (fun c => ! arityOk n c.h)
    (fun c c' hcc => by show (! arityOk n c.h) = (! arityOk n c'.h); rw [hcc.1]) h
  cases h with
  | nil => rfl
  | @cons a b as bs hab hrest =>
      unfold postScan
      rw [if_neg (by simp), if_neg (by simp)]
      rcases forall2_cases hsurv with ⟨hX, hY⟩ | ⟨w, w', ws, ws', hX, hY, hww, _⟩
      · rw [hX, hY]
        rcases forall2_cases herr with ⟨hX2, hY2⟩ |
          ⟨e, e', es, es', hX2, hY2, hee, hrest2⟩
        · rw [hX2, hY2]
        · rcases forall2_cases hrest2 with ⟨hX3, hY3⟩ |
            ⟨e2, e2', es2, es2', hX3, hY3, _, _⟩
          · subst hX3; subst hY3
            rw [hX2, hY2]
            simp [resultShape, hee.1]
          · subst hX3; subst hY3
            rw [hX2, hY2]
      · rw [hX, hY]
        show resultShape (match getHandlerParams w.h.params w.vals with
            | none => CmdResult.incomplete w.h.hid
            | some kw => CmdResult.resolved w.h.hid kw) =
          resultShape (match getHandlerParams w'.h.params w'.vals with
            | none => CmdResult.incomplete w'.h.hid
            | some kw => CmdResult.resolved w'.h.hid kw)
        have hps : w'.h.params = w.h.params := by rw [hww.1]
        have hbind := getHandlerParams_isSome_congr w.h.params hww.2
        rw [hps]
        cases hg : getHandlerParams w.h.params w.vals with
        | none =>
            rw [hg] at hbind
            cases hg' : getHandlerParams w.h.params w'.vals with
            | none => simp [resultShape, hww.1]
            | some kw =>
                rw [hg'] at hbind
                cases hbind
        | some kw =>
            rw [hg] at hbind
            cases hg' : getHandlerParams w.h.params w'.vals with
            | none =>
                rw [hg'] at hbind
                cases hbind
            | some kw' => simp [resultShape, hww.1]


/-- C8: case-insensitivity.  Part 1: each entity parser's outcome depends
only on the lower-cased token (stored keys are consulted lower-cased and
the resolved value and failure message are built from the lower-cased
token).  Part 2: two inputs equal after lower-casing every token produce
the same outcome up to the raw bound string values: same constructor, same
winning signature id, same failure message — in particular changing only
the letter case of any token, literal positions included, never changes
which candidate is resolved. -/
theorem claim_C8 :
    (∀ (env : Env) (p : ParserKind) (t t' : String),
      strLower t = strLower t' → runParser env p t = runParser env p t')
    ∧ (∀ (env : Env) (toks toks' : List String),
      toks.map strLower = toks'.map strLower →
      resultShape (getCommand env toks) = resultShape (getCommand env toks')) := by
  refine ⟨fun env p t t' h => runParser_lower_congr env p h, ?_⟩
  intro env toks toks' hmap
  by_cases hne : toks = []
  · subst hne
    obtain rfl : toks' = [] := by
      cases toks' with
      | nil => rfl
      | cons b bs => simp at hmap
    rfl
  · have hne' : toks' ≠ [] := by
      intro h
      subst h
      cases toks with
      | nil => exact hne rfl
      | cons a as => simp at hmap
    have hlen : toks.length = toks'.length := by
      have := congrArg List.length hmap
      simpa using this
    have hinit : List.Forall₂ candRel (initCands Handler.handlers)
        (initCands Handler.handlers) :=
      List.forall₂_same.mpr (fun c _ => ⟨rfl, rfl⟩)
    rcases scanFrom_congr toks toks' 0 hmap hinit with
      ⟨m, h1, h2⟩ | ⟨o, o', h1, h2, hrel⟩
    · rw [show getCommand env toks =
        getCommandWith Handler.handlers env toks from rfl,
        show getCommand env toks' =
        getCommandWith Handler.handlers env toks' from rfl,
        getCommandWith_scan_error hne h1, getCommandWith_scan_error hne' h2]
    · rw [show getCommand env toks =
        getCommandWith Handler.handlers env toks from rfl,
        show getCommand env toks' =
        getCommandWith Handler.handlers env toks' from rfl,
        getCommandWith_scan_ok hne h1, getCommandWith_scan_ok hne' h2, hlen]
      exact postScan_congr hrel

/-- C8 witness: upper-casing both tokens of `command ping` leaves the
resolved signature unchanged. -/
theorem claim_C8_witness :
    resultShape (getCommand env0 ["COMMAND", "PING"]) =
      resultShape (getCommand env0 ["command", "ping"]) :=
  claim_C8.2 env0 ["COMMAND", "PING"] ["command", "ping"] (by decide)

/-- The canonical token for one pattern position: the literal's own text at
a literal position, the supplied fill string elsewhere. -/
def exactTok (t : ParamTyp) (fill : String) : String :=
  match t with
  | .lit s => s
  | _ => fill

/-- A token sequence exactly matching a signature's pattern: one token per
pattern position. -/
def mkToks (h : Handler) (fills : List String) : List String :=
  List.zipWith exactTok h.args fills

theorem list_len_four {α : Type} {l : List α} (h : l.length = 4) :
    ∃ a b c d, l = [a, b, c, d] := by
  cases l with
  | nil => simp at h
  | cons a l2 =>
      obtain ⟨b, c, d, rfl⟩ := List.length_eq_three.mp (by simpa using h)
      exact ⟨a, b, c, d, rfl⟩

theorem scanChain2 (env : Env) (t0 t1 : String) (l0 l1 l2 : List Cand)
    (h0 : scanPos env [t0, t1] 0 t0 l0 = .ok l1)
    (h1 : scanPos env [t0, t1] 1 t1 l1 = .ok l2) :
    scanFrom env [t0, t1] 0 [t0, t1] l0 = .ok l2 := by
  rw [scanFrom_cons_ok _ _ _ _ _ _ h0]
  have h2 : scanFrom env [t0, t1] 1 [t1] l1 = .ok l2 := by
    rw [scanFrom_cons_ok _ _ _ _ _ _ h1]
    rfl
  exact h2

theorem scanChain3 (env : Env) (t0 t1 t2 : String) (l0 l1 l2 l3 : List Cand)
    (h0 : scanPos env [t0, t1, t2] 0 t0 l0 = .ok l1)
    (h1 : scanPos env [t0, t1, t2] 1 t1 l1 = .ok l2)
    (h2 : scanPos env [t0, t1, t2] 2 t2 l2 = .ok l3) :
    scanFrom env [t0, t1, t2] 0 [t0, t1, t2] l0 = .ok l3 := by
  rw [scanFrom_cons_ok _ _ _ _ _ _ h0]
  have c2 : scanFrom env [t0, t1, t2] 2 [t2] l2 = .ok l3 := by
    rw [scanFrom_cons_ok _ _ _ _ _ _ h2]
    rfl
  have c1 : scanFrom env [t0, t1, t2] 1 [t1, t2] l1 = .ok l3 := by
    rw [scanFrom_cons_ok _ _ _ _ _ _ h1]
    exact c2
  exact c1

theorem scanChain4 (env : Env) (t0 t1 t2 t3 : String)
    (l0 l1 l2 l3 l4 : List Cand)
    (h0 : scanPos env [t0, t1, t2, t3] 0 t0 l0 = .ok l1)
    (h1 : scanPos env [t0, t1, t2, t3] 1 t1 l1 = .ok l2)
    (h2 : scanPos env [t0, t1, t2, t3] 2 t2 l2 = .ok l3)
    (h3 : scanPos env [t0, t1, t2, t3] 3 t3 l3 = .ok l4) :
    scanFrom env [t0, t1, t2, t3] 0 [t0, t1, t2, t3] l0 = .ok l4 := by
  rw [scanFrom_cons_ok _ _ _ _ _ _ h0]
  have c3 : scanFrom env [t0, t1, t2, t3] 3 [t3] l3 = .ok l4 := by
    rw [scanFrom_cons_ok _ _ _ _ _ _ h3]
    rfl
  have c2 : scanFrom env [t0, t1, t2, t3] 2 [t2, t3] l2 = .ok l4 := by
    rw [scanFrom_cons_ok _ _ _ _ _ _ h2]
    exact c3
  have c1 : scanFrom env [t0, t1, t2, t3] 1 [t1, t2, t3] l1 = .ok l4 := by
    rw [scanFrom_cons_ok _ _ _ _ _ _ h1]
    exact c2
  exact c1

/-- C6 round trip: every registered signature, on a token sequence exactly
matching its pattern — its own text at literal positions, arbitrary tokens
elsewhere, with every typed-parser position parsing successfully —
resolves to that very signature with every declared parameter bound, in
declaration order.  Concretely, `addCommand ping` resolves to signature 1
with `name` bound to `ping` and the two optional parameters bound to
null. -/
theorem claim_C6 :
    (∀ (env : Env) (h : Handler) (fills : List String),
      h ∈ Handler.handlers → fills.length = h.args.length →
      (∀ (j : Nat) (p : ParserKind), h.args[j]? = some (.parser p) →
        ∃ v, runParser env p (fills.getD j "") = .ok v) →
      ∃ kw, getCommand env (mkToks h fills) = .resolved h.hid kw
        ∧ kw.map Prod.fst = h.params.map Param.pname)
    ∧ (∀ env : Env, getCommand env ["addCommand", "ping"] =
        .resolved 1 [("name", Value.vStr "ping"), ("handler_id", Value.vNone),
          ("category", Value.vNone)]) := by
  refine ⟨?_, fun env => rfl⟩
  intro env h fills hmem hlen hp
  simp only [Handler.handlers, List.mem_cons, List.not_mem_nil,
    or_false] at hmem
  rcases hmem with rfl|rfl|rfl|rfl|rfl|rfl|rfl|rfl|rfl|rfl|rfl|rfl|rfl|rfl|rfl|rfl|rfl|rfl|rfl|rfl|rfl|rfl|rfl|rfl|rfl|rfl|rfl|rfl|rfl|rfl|rfl|rfl|rfl
  · obtain ⟨f0, rfl⟩ := List.length_eq_one.mp hlen
    exact ⟨[], rfl, rfl⟩
  · obtain ⟨f0, f1, f2, f3, rfl⟩ := list_len_four hlen
    exact ⟨[("name", Value.vStr f1), ("handler_id", Value.vStr f2), ("category", Value.vStr f3)], rfl, rfl⟩
  · obtain ⟨f0, f1, rfl⟩ := List.length_eq_two.mp hlen
    obtain ⟨v, hv0⟩ := hp 1 .entry rfl
    have hv : runParser env .entry f1 = .ok v := hv0
    have h1 := scanPosAllParser env ["removeCommand", f1] 1 f1 .entry v hv
      (initCands [hdl2]) (by decide)
    have h1x : scanPos env ["removeCommand", f1] 1 f1 (initCands [hdl2]) =
        .ok [(⟨hdl2, [v]⟩ : Cand)] := h1
    have hscan := scanChain2 env "removeCommand" f1 (initCands Handler.handlers)
      (initCands [hdl2]) [(⟨hdl2, [v]⟩ : Cand)] rfl h1x
    refine ⟨[("name", v)], ?_, rfl⟩
    rw [show getCommand env (mkToks hdl2 [f0, f1]) =
      getCommandWith Handler.handlers env ["removeCommand", f1] from rfl,
      getCommandWith_scan_ok (by simp) hscan]
    rfl
  · obtain ⟨f0, f1, rfl⟩ := List.length_eq_two.mp hlen
    obtain ⟨v, hv0⟩ := hp 1 .entry rfl
    have hv : runParser env .entry f1 = .ok v := hv0
    have h1 := scanPosAllParser env ["command", f1] 1 f1 .entry v hv
      (initCands [hdl3, hdl4, hdl5, hdl6, hdl7, hdl8, hdl9, hdl10, hdl11, hdl12]) (by decide)
    have h1x : scanPos env ["command", f1] 1 f1 (initCands [hdl3, hdl4, hdl5, hdl6, hdl7, hdl8, hdl9, hdl10, hdl11, hdl12]) =
        .ok [(⟨hdl3, [v]⟩ : Cand), (⟨hdl4, [v]⟩ : Cand), (⟨hdl5, [v]⟩ : Cand), (⟨hdl6, [v]⟩ : Cand), (⟨hdl7, [v]⟩ : Cand), (⟨hdl8, [v]⟩ : Cand), (⟨hdl9, [v]⟩ : Cand), (⟨hdl10, [v]⟩ : Cand), (⟨hdl11, [v]⟩ : Cand), (⟨hdl12, [v]⟩ : Cand)] := h1
    have hscan := scanChain2 env "command" f1 (initCands Handler.handlers)
      (initCands [hdl3, hdl4, hdl5, hdl6, hdl7, hdl8, hdl9, hdl10, hdl11, hdl12]) [(⟨hdl3, [v]⟩ : Cand), (⟨hdl4, [v]⟩ : Cand), (⟨hdl5, [v]⟩ : Cand), (⟨hdl6, [v]⟩ : Cand), (⟨hdl7, [v]⟩ : Cand), (⟨hdl8, [v]⟩ : Cand), (⟨hdl9, [v]⟩ : Cand), (⟨hdl10, [v]⟩ : Cand), (⟨hdl11, [v]⟩ : Cand), (⟨hdl12, [v]⟩ : Cand)] rfl h1x
    refine ⟨[("name", v)], ?_, rfl⟩
    rw [show getCommand env (mkToks hdl3 [f0, f1]) =
      getCommandWith Handler.handlers env ["command", f1] from rfl,
      getCommandWith_scan_ok (by simp) hscan]
    rfl
  · obtain ⟨f0, f1, f2, rfl⟩ := List.length_eq_three.mp hlen
    obtain ⟨v, hv0⟩ := hp 1 .entry rfl
    have hv : runParser env .entry f1 = .ok v := hv0
    have h1 := scanPosAllParser env ["command", f1, "info"] 1 f1 .entry v hv
      (initCands [hdl3, hdl4, hdl5, hdl6, hdl7, hdl8, hdl9, hdl10, hdl11, hdl12]) (by decide)
    have h1x : scanPos env ["command", f1, "info"] 1 f1 (initCands [hdl3, hdl4, hdl5, hdl6, hdl7, hdl8, hdl9, hdl10, hdl11, hdl12]) =
        .ok [(⟨hdl3, [v]⟩ : Cand), (⟨hdl4, [v]⟩ : Cand), (⟨hdl5, [v]⟩ : Cand), (⟨hdl6, [v]⟩ : Cand), (⟨hdl7, [v]⟩ : Cand), (⟨hdl8, [v]⟩ : Cand), (⟨hdl9, [v]⟩ : Cand), (⟨hdl10, [v]⟩ : Cand), (⟨hdl11, [v]⟩ : Cand), (⟨hdl12, [v]⟩ : Cand)] := h1
    have hscan := scanChain3 env "command" f1 "info"
      (initCands Handler.handlers)
      (initCands [hdl3, hdl4, hdl5, hdl6, hdl7, hdl8, hdl9, hdl10, hdl11, hdl12])
      [(⟨hdl3, [v]⟩ : Cand), (⟨hdl4, [v]⟩ : Cand), (⟨hdl5, [v]⟩ : Cand), (⟨hdl6, [v]⟩ : Cand), (⟨hdl7, [v]⟩ : Cand), (⟨hdl8, [v]⟩ : Cand), (⟨hdl9, [v]⟩ : Cand), (⟨hdl10, [v]⟩ : Cand), (⟨hdl11, [v]⟩ : Cand), (⟨hdl12, [v]⟩ : Cand)] [⟨hdl4, [v]⟩] rfl h1x rfl
    refine ⟨[("name", v)], ?_, rfl⟩
    rw [show getCommand env (mkToks hdl4 [f0, f1, f2]) =
      getCommandWith Handler.handlers env ["command", f1, "info"] from rfl,
      getCommandWith_scan_ok (by simp) hscan]
    rfl
  · obtain ⟨f0, f1, f2, f3, rfl⟩ := list_len_four hlen
    obtain ⟨v, hv0⟩ := hp 1 .entry rfl
    have hv : runParser env .entry f1 = .ok v := hv0
    have h1 := scanPosAllParser env ["command", f1, "setHandler", f3] 1 f1 .entry v hv
      (initCands [hdl3, hdl4, hdl5, hdl6, hdl7, hdl8, hdl9, hdl10, hdl11, hdl12]) (by decide)
    have h1x : scanPos env ["command", f1, "setHandler", f3] 1 f1 (initCands [hdl3, hdl4, hdl5, hdl6, hdl7, hdl8, hdl9, hdl10, hdl11, hdl12]) =
        .ok [(⟨hdl3, [v]⟩ : Cand), (⟨hdl4, [v]⟩ : Cand), (⟨hdl5, [v]⟩ : Cand), (⟨hdl6, [v]⟩ : Cand), (⟨hdl7, [v]⟩ : Cand), (⟨hdl8, [v]⟩ : Cand), (⟨hdl9, [v]⟩ : Cand), (⟨hdl10, [v]⟩ : Cand), (⟨hdl11, [v]⟩ : Cand), (⟨hdl12, [v]⟩ : Cand)] := h1
    obtain ⟨v2, hv20⟩ := hp 3 .handlerRef rfl
    have hv2 : runParser env .handlerRef f3 = .ok v2 := hv20
    have h3 : scanPos env ["command", f1, "setHandler", f3] 3 f3 [⟨hdl5, [v]⟩] =
        .ok [⟨hdl5, [v, v2]⟩] := by
      rw [scanPos_cons_keep _ _ _ _ _ _ (stepOne_parser_ok rfl hv2),
        scanPos_nil]
      rfl
    have hscan := scanChain4 env "command" f1 "setHandler" f3
      (initCands Handler.handlers)
      (initCands [hdl3, hdl4, hdl5, hdl6, hdl7, hdl8, hdl9, hdl10, hdl11, hdl12])
      [(⟨hdl3, [v]⟩ : Cand), (⟨hdl4, [v]⟩ : Cand), (⟨hdl5, [v]⟩ : Cand), (⟨hdl6, [v]⟩ : Cand), (⟨hdl7, [v]⟩ : Cand), (⟨hdl8, [v]⟩ : Cand), (⟨hdl9, [v]⟩ : Cand), (⟨hdl10, [v]⟩ : Cand), (⟨hdl11, [v]⟩ : Cand), (⟨hdl12, [v]⟩ : Cand)] [⟨hdl5, [v]⟩]
      [⟨hdl5, [v, v2]⟩] rfl h1x rfl h3
    refine ⟨[("name", v), ("handler_id", v2)], ?_, rfl⟩
    rw [show getCommand env (mkToks hdl5 [f0, f1, f2, f3]) =
      getCommandWith Handler.handlers env ["command", f1, "setHandler", f3] from rfl,
      getCommandWith_scan_ok (by simp) hscan]
    rfl
  · obtain ⟨f0, f1, f2, f3, rfl⟩ := list_len_four hlen
    obtain ⟨v, hv0⟩ := hp 1 .entry rfl
    have hv : runParser env .entry f1 = .ok v := hv0
    have h1 := scanPosAllParser env ["command", f1, "addAlias", f3] 1 f1 .entry v hv
      (initCands [hdl3, hdl4, hdl5, hdl6, hdl7, hdl8, hdl9, hdl10, hdl11, hdl12]) (by decide)
    have h1x : scanPos env ["command", f1, "addAlias", f3] 1 f1 (initCands [hdl3, hdl4, hdl5, hdl6, hdl7, hdl8, hdl9, hdl10, hdl11, hdl12]) =
        .ok [(⟨hdl3, [v]⟩ : Cand), (⟨hdl4, [v]⟩ : Cand), (⟨hdl5, [v]⟩ : Cand), (⟨hdl6, [v]⟩ : Cand), (⟨hdl7, [v]⟩ : Cand), (⟨hdl8, [v]⟩ : Cand), (⟨hdl9, [v]⟩ : Cand), (⟨hdl10, [v]⟩ : Cand), (⟨hdl11, [v]⟩ : Cand), (⟨hdl12, [v]⟩ : Cand)] := h1
    have hscan := scanChain4 env "command" f1 "addAlias" f3
      (initCands Handler.handlers)
      (initCands [hdl3, hdl4, hdl5, hdl6, hdl7, hdl8, hdl9, hdl10, hdl11, hdl12])
      [(⟨hdl3, [v]⟩ : Cand), (⟨hdl4, [v]⟩ : Cand), (⟨hdl5, [v]⟩ : Cand), (⟨hdl6, [v]⟩ : Cand), (⟨hdl7, [v]⟩ : Cand), (⟨hdl8, [v]⟩ : Cand), (⟨hdl9, [v]⟩ : Cand), (⟨hdl10, [v]⟩ : Cand), (⟨hdl11, [v]⟩ : Cand), (⟨hdl12, [v]⟩ : Cand)] [⟨hdl6, [v]⟩]
      [⟨hdl6, [v, Value.vRest [f3]]⟩] rfl h1x rfl rfl
    refine ⟨[("name", v), ("alias", Value.vRest [f3])], ?_, rfl⟩
    rw [show getCommand env (mkToks hdl6 [f0, f1, f2, f3]) =
      getCommandWith Handler.handlers env ["command", f1, "addAlias", f3] from rfl,
      getCommandWith_scan_ok (by simp) hscan]
    rfl
  · obtain ⟨f0, f1, f2, f3, rfl⟩ := list_len_four hlen
    obtain ⟨v, hv0⟩ := hp 1 .entry rfl
    have hv : runParser env .entry f1 = .ok v := hv0
    have h1 := scanPosAllParser env ["command", f1, "removeAlias", f3] 1 f1 .entry v hv
      (initCands [hdl3, hdl4, hdl5, hdl6, hdl7, hdl8, hdl9, hdl10, hdl11, hdl12]) (by decide)
    have h1x : scanPos env ["command", f1, "removeAlias", f3] 1 f1 (initCands [hdl3, hdl4, hdl5, hdl6, hdl7, hdl8, hdl9, hdl10, hdl11, hdl12]) =
        .ok [(⟨hdl3, [v]⟩ : Cand), (⟨hdl4, [v]⟩ : Cand), (⟨hdl5, [v]⟩ : Cand), (⟨hdl6, [v]⟩ : Cand), (⟨hdl7, [v]⟩ : Cand), (⟨hdl8, [v]⟩ : Cand), (⟨hdl9, [v]⟩ : Cand), (⟨hdl10, [v]⟩ : Cand), (⟨hdl11, [v]⟩ : Cand), (⟨hdl12, [v]⟩ : Cand)] := h1
    have hscan := scanChain4 env "command" f1 "removeAlias" f3
      (initCands Handler.handlers)
      (initCands [hdl3, hdl4, hdl5, hdl6, hdl7, hdl8, hdl9, hdl10, hdl11, hdl12])
      [(⟨hdl3, [v]⟩ : Cand), (⟨hdl4, [v]⟩ : Cand), (⟨hdl5, [v]⟩ : Cand), (⟨hdl6, [v]⟩ : Cand), (⟨hdl7, [v]⟩ : Cand), (⟨hdl8, [v]⟩ : Cand), (⟨hdl9, [v]⟩ : Cand), (⟨hdl10, [v]⟩ : Cand), (⟨hdl11, [v]⟩ : Cand), (⟨hdl12, [v]⟩ : Cand)] [⟨hdl7, [v]⟩]
      [⟨hdl7, [v, Value.vRest [f3]]⟩] rfl h1x rfl rfl
    refine ⟨[("name", v), ("alias", Value.vRest [f3])], ?_, rfl⟩
    rw [show getCommand env (mkToks hdl7 [f0, f1, f2, f3]) =
      getCommandWith Handler.handlers env ["command", f1, "removeAlias", f3] from rfl,
      getCommandWith_scan_ok (by simp) hscan]
    rfl
  · obtain ⟨f0, f1, f2, f3, rfl⟩ := list_len_four hlen
    obtain ⟨v, hv0⟩ := hp 1 .entry rfl
    have hv : runParser env .entry f1 = .ok v := hv0
    have h1 := scanPosAllParser env ["command", f1, "setUsage", f3] 1 f1 .entry v hv
      (initCands [hdl3, hdl4, hdl5, hdl6, hdl7, hdl8, hdl9, hdl10, hdl11, hdl12]) (by decide)
    have h1x : scanPos env ["command", f1, "setUsage", f3] 1 f1 (initCands [hdl3, hdl4, hdl5, hdl6, hdl7, hdl8, hdl9, hdl10, hdl11, hdl12]) =
        .ok [(⟨hdl3, [v]⟩ : Cand), (⟨hdl4, [v]⟩ : Cand), (⟨hdl5, [v]⟩ : Cand), (⟨hdl6, [v]⟩ : Cand), (⟨hdl7, [v]⟩ : Cand), (⟨hdl8, [v]⟩ : Cand), (⟨hdl9, [v]⟩ : Cand), (⟨hdl10, [v]⟩ : Cand), (⟨hdl11, [v]⟩ : Cand), (⟨hdl12, [v]⟩ : Cand)] := h1
    have hscan := scanChain4 env "command" f1 "setUsage" f3
      (initCands Handler.handlers)
      (initCands [hdl3, hdl4, hdl5, hdl6, hdl7, hdl8, hdl9, hdl10, hdl11, hdl12])
      [(⟨hdl3, [v]⟩ : Cand), (⟨hdl4, [v]⟩ : Cand), (⟨hdl5, [v]⟩ : Cand), (⟨hdl6, [v]⟩ : Cand), (⟨hdl7, [v]⟩ : Cand), (⟨hdl8, [v]⟩ : Cand), (⟨hdl9, [v]⟩ : Cand), (⟨hdl10, [v]⟩ : Cand), (⟨hdl11, [v]⟩ : Cand), (⟨hdl12, [v]⟩ : Cand)] [⟨hdl8, [v]⟩]
      [⟨hdl8, [v, Value.vStr f3]⟩] rfl h1x rfl rfl
    refine ⟨[("name", v), ("usage", Value.vStr f3)], ?_, rfl⟩
    rw [show getCommand env (mkToks hdl8 [f0, f1, f2, f3]) =
      getCommandWith Handler.handlers env ["command", f1, "setUsage", f3] from rfl,
      getCommandWith_scan_ok (by simp) hscan]
    rfl
  · obtain ⟨f0, f1, f2, rfl⟩ := List.length_eq_three.mp hlen
    obtain ⟨v, hv0⟩ := hp 1 .entry rfl
    have hv : runParser env .entry f1 = .ok v := hv0
    have h1 := scanPosAllParser env ["command", f1, "resetUsage"] 1 f1 .entry v hv
      (initCands [hdl3, hdl4, hdl5, hdl6, hdl7, hdl8, hdl9, hdl10, hdl11, hdl12]) (by decide)
    have h1x : scanPos env ["command", f1, "resetUsage"] 1 f1 (initCands [hdl3, hdl4, hdl5, hdl6, hdl7, hdl8, hdl9, hdl10, hdl11, hdl12]) =
        .ok [(⟨hdl3, [v]⟩ : Cand), (⟨hdl4, [v]⟩ : Cand), (⟨hdl5, [v]⟩ : Cand), (⟨hdl6, [v]⟩ : Cand), (⟨hdl7, [v]⟩ : Cand), (⟨hdl8, [v]⟩ : Cand), (⟨hdl9, [v]⟩ : Cand), (⟨hdl10, [v]⟩ : Cand), (⟨hdl11, [v]⟩ : Cand), (⟨hdl12, [v]⟩ : Cand)] := h1
    have hscan := scanChain3 env "command" f1 "resetUsage"
      (initCands Handler.handlers)
      (initCands [hdl3, hdl4, hdl5, hdl6, hdl7, hdl8, hdl9, hdl10, hdl11, hdl12])
      [(⟨hdl3, [v]⟩ : Cand), (⟨hdl4, [v]⟩ : Cand), (⟨hdl5, [v]⟩ : Cand), (⟨hdl6, [v]⟩ : Cand), (⟨hdl7, [v]⟩ : Cand), (⟨hdl8, [v]⟩ : Cand), (⟨hdl9, [v]⟩ : Cand), (⟨hdl10, [v]⟩ : Cand), (⟨hdl11, [v]⟩ : Cand), (⟨hdl12, [v]⟩ : Cand)] [⟨hdl9, [v]⟩] rfl h1x rfl
    refine ⟨[("name", v)], ?_, rfl⟩
    rw [show getCommand env (mkToks hdl9 [f0, f1, f2]) =
      getCommandWith Handler.handlers env ["command", f1, "resetUsage"] from rfl,
      getCommandWith_scan_ok (by simp) hscan]
    rfl
  · obtain ⟨f0, f1, f2, f3, rfl⟩ := list_len_four hlen
    obtain ⟨v, hv0⟩ := hp 1 .entry rfl
    have hv : runParser env .entry f1 = .ok v := hv0
    have h1 := scanPosAllParser env ["command", f1, "setCategory", f3] 1 f1 .entry v hv
      (initCands [hdl3, hdl4, hdl5, hdl6, hdl7, hdl8, hdl9, hdl10, hdl11, hdl12]) (by decide)
    have h1x : scanPos env ["command", f1, "setCategory", f3] 1 f1 (initCands [hdl3, hdl4, hdl5, hdl6, hdl7, hdl8, hdl9, hdl10, hdl11, hdl12]) =
        .ok [(⟨hdl3, [v]⟩ : Cand), (⟨hdl4, [v]⟩ : Cand), (⟨hdl5, [v]⟩ : Cand), (⟨hdl6, [v]⟩ : Cand), (⟨hdl7, [v]⟩ : Cand), (⟨hdl8, [v]⟩ : Cand), (⟨hdl9, [v]⟩ : Cand), (⟨hdl10, [v]⟩ : Cand), (⟨hdl11, [v]⟩ : Cand), (⟨hdl12, [v]⟩ : Cand)] := h1
    obtain ⟨v2, hv20⟩ := hp 3 .category rfl
    have hv2 : runParser env .category f3 = .ok v2 := hv20
    have h3 : scanPos env ["command", f1, "setCategory", f3] 3 f3 [⟨hdl10, [v]⟩] =
        .ok [⟨hdl10, [v, v2]⟩] := by
      rw [scanPos_cons_keep _ _ _ _ _ _ (stepOne_parser_ok rfl hv2),
        scanPos_nil]
      rfl
    have hscan := scanChain4 env "command" f1 "setCategory" f3
      (initCands Handler.handlers)
      (initCands [hdl3, hdl4, hdl5, hdl6, hdl7, hdl8, hdl9, hdl10, hdl11, hdl12])
      [(⟨hdl3, [v]⟩ : Cand), (⟨hdl4, [v]⟩ : Cand), (⟨hdl5, [v]⟩ : Cand), (⟨hdl6, [v]⟩ : Cand), (⟨hdl7, [v]⟩ : Cand), (⟨hdl8, [v]⟩ : Cand), (⟨hdl9, [v]⟩ : Cand), (⟨hdl10, [v]⟩ : Cand), (⟨hdl11, [v]⟩ : Cand), (⟨hdl12, [v]⟩ : Cand)] [⟨hdl10, [v]⟩]
      [⟨hdl10, [v, v2]⟩] rfl h1x rfl h3
    refine ⟨[("name", v), ("category", v2)], ?_, rfl⟩
    rw [show getCommand env (mkToks hdl10 [f0, f1, f2, f3]) =
      getCommandWith Handler.handlers env ["command", f1, "setCategory", f3] from rfl,
      getCommandWith_scan_ok (by simp) hscan]
    rfl
  · obtain ⟨f0, f1, f2, rfl⟩ := List.length_eq_three.mp hlen
    obtain ⟨v, hv0⟩ := hp 1 .entry rfl
    have hv : runParser env .entry f1 = .ok v := hv0
    have h1 := scanPosAllParser env ["command", f1, "resetCategory"] 1 f1 .entry v hv
      (initCands [hdl3, hdl4, hdl5, hdl6, hdl7, hdl8, hdl9, hdl10, hdl11, hdl12]) (by decide)
    have h1x : scanPos env ["command", f1, "resetCategory"] 1 f1 (initCands [hdl3, hdl4, hdl5, hdl6, hdl7, hdl8, hdl9, hdl10, hdl11, hdl12]) =
        .ok [(⟨hdl3, [v]⟩ : Cand), (⟨hdl4, [v]⟩ : Cand), (⟨hdl5, [v]⟩ : Cand), (⟨hdl6, [v]⟩ : Cand), (⟨hdl7, [v]⟩ : Cand), (⟨hdl8, [v]⟩ : Cand), (⟨hdl9, [v]⟩ : Cand), (⟨hdl10, [v]⟩ : Cand), (⟨hdl11, [v]⟩ : Cand), (⟨hdl12, [v]⟩ : Cand)] := h1
    have hscan := scanChain3 env "command" f1 "resetCategory"
      (initCands Handler.handlers)
      (initCands [hdl3, hdl4, hdl5, hdl6, hdl7, hdl8, hdl9, hdl10, hdl11, hdl12])
      [(⟨hdl3, [v]⟩ : Cand), (⟨hdl4, [v]⟩ : Cand), (⟨hdl5, [v]⟩ : Cand), (⟨hdl6, [v]⟩ : Cand), (⟨hdl7, [v]⟩ : Cand), (⟨hdl8, [v]⟩ : Cand), (⟨hdl9, [v]⟩ : Cand), (⟨hdl10, [v]⟩ : Cand), (⟨hdl11, [v]⟩ : Cand), (⟨hdl12, [v]⟩ : Cand)] [⟨hdl11, [v]⟩] rfl h1x rfl
    refine ⟨[("name", v)], ?_, rfl⟩
    rw [show getCommand env (mkToks hdl11 [f0, f1, f2]) =
      getCommandWith Handler.handlers env ["command", f1, "resetCategory"] from rfl,
      getCommandWith_scan_ok (by simp) hscan]
    rfl
  · obtain ⟨f0, f1, f2, f3, rfl⟩ := list_len_four hlen
    obtain ⟨v, hv0⟩ := hp 1 .entry rfl
    have hv : runParser env .entry f1 = .ok v := hv0
    have h1 := scanPosAllParser env ["command", f1, "test", f3] 1 f1 .entry v hv
      (initCands [hdl3, hdl4, hdl5, hdl6, hdl7, hdl8, hdl9, hdl10, hdl11, hdl12]) (by decide)
    have h1x : scanPos env ["command", f1, "test", f3] 1 f1 (initCands [hdl3, hdl4, hdl5, hdl6, hdl7, hdl8, hdl9, hdl10, hdl11, hdl12]) =
        .ok [(⟨hdl3, [v]⟩ : Cand), (⟨hdl4, [v]⟩ : Cand), (⟨hdl5, [v]⟩ : Cand), (⟨hdl6, [v]⟩ : Cand), (⟨hdl7, [v]⟩ : Cand), (⟨hdl8, [v]⟩ : Cand), (⟨hdl9, [v]⟩ : Cand), (⟨hdl10, [v]⟩ : Cand), (⟨hdl11, [v]⟩ : Cand), (⟨hdl12, [v]⟩ : Cand)] := h1
    have hscan := scanChain4 env "command" f1 "test" f3
      (initCands Handler.handlers)
      (initCands [hdl3, hdl4, hdl5, hdl6, hdl7, hdl8, hdl9, hdl10, hdl11, hdl12])
      [(⟨hdl3, [v]⟩ : Cand), (⟨hdl4, [v]⟩ : Cand), (⟨hdl5, [v]⟩ : Cand), (⟨hdl6, [v]⟩ : Cand), (⟨hdl7, [v]⟩ : Cand), (⟨hdl8, [v]⟩ : Cand), (⟨hdl9, [v]⟩ : Cand), (⟨hdl10, [v]⟩ : Cand), (⟨hdl11, [v]⟩ : Cand), (⟨hdl12, [v]⟩ : Cand)] [⟨hdl12, [v]⟩]
      [⟨hdl12, [v, Value.vStr f3]⟩] rfl h1x rfl rfl
    refine ⟨[("name", v), ("user", Value.vStr f3)], ?_, rfl⟩
    rw [show getCommand env (mkToks hdl12 [f0, f1, f2, f3]) =
      getCommandWith Handler.handlers env ["command", f1, "test", f3] from rfl,
      getCommandWith_scan_ok (by simp) hscan]
    rfl
  · obtain ⟨f0, rfl⟩ := List.length_eq_one.mp hlen
    exact ⟨[], rfl, rfl⟩
  · obtain ⟨f0, f1, f2, rfl⟩ := List.length_eq_three.mp hlen
    exact ⟨[("name", Value.vStr f1), ("allowed_commands", Value.vRest [f2])], rfl, rfl⟩
  · obtain ⟨f0, f1, rfl⟩ := List.length_eq_two.mp hlen
    obtain ⟨v, hv0⟩ := hp 1 .group rfl
    have hv : runParser env .group f1 = .ok v := hv0
    have h1 := scanPosAllParser env ["deleteGroup", f1] 1 f1 .group v hv
      (initCands [hdl15]) (by decide)
    have h1x : scanPos env ["deleteGroup", f1] 1 f1 (initCands [hdl15]) =
        .ok [(⟨hdl15, [v]⟩ : Cand)] := h1
    have hscan := scanChain2 env "deleteGroup" f1 (initCands Handler.handlers)
      (initCands [hdl15]) [(⟨hdl15, [v]⟩ : Cand)] rfl h1x
    refine ⟨[("name", v)], ?_, rfl⟩
    rw [show getCommand env (mkToks hdl15 [f0, f1]) =
      getCommandWith Handler.handlers env ["deleteGroup", f1] from rfl,
      getCommandWith_scan_ok (by simp) hscan]
    rfl
  · obtain ⟨f0, f1, rfl⟩ := List.length_eq_two.mp hlen
    obtain ⟨v, hv0⟩ := hp 1 .group rfl
    have hv : runParser env .group f1 = .ok v := hv0
    have h1 := scanPosAllParser env ["group", f1] 1 f1 .group v hv
      (initCands [hdl16, hdl17, hdl18, hdl19, hdl20, hdl21, hdl22, hdl23]) (by decide)
    have h1x : scanPos env ["group", f1] 1 f1 (initCands [hdl16, hdl17, hdl18, hdl19, hdl20, hdl21, hdl22, hdl23]) =
        .ok [(⟨hdl16, [v]⟩ : Cand), (⟨hdl17, [v]⟩ : Cand), (⟨hdl18, [v]⟩ : Cand), (⟨hdl19, [v]⟩ : Cand), (⟨hdl20, [v]⟩ : Cand), (⟨hdl21, [v]⟩ : Cand), (⟨hdl22, [v]⟩ : Cand), (⟨hdl23, [v]⟩ : Cand)] := h1
    have hscan := scanChain2 env "group" f1 (initCands Handler.handlers)
      (initCands [hdl16, hdl17, hdl18, hdl19, hdl20, hdl21, hdl22, hdl23]) [(⟨hdl16, [v]⟩ : Cand), (⟨hdl17, [v]⟩ : Cand), (⟨hdl18, [v]⟩ : Cand), (⟨hdl19, [v]⟩ : Cand), (⟨hdl20, [v]⟩ : Cand), (⟨hdl21, [v]⟩ : Cand), (⟨hdl22, [v]⟩ : Cand), (⟨hdl23, [v]⟩ : Cand)] rfl h1x
    refine ⟨[("name", v)], ?_, rfl⟩
    rw [show getCommand env (mkToks hdl16 [f0, f1]) =
      getCommandWith Handler.handlers env ["group", f1] from rfl,
      getCommandWith_scan_ok (by simp) hscan]
    rfl
  · obtain ⟨f0, f1, f2, rfl⟩ := List.length_eq_three.mp hlen
    obtain ⟨v, hv0⟩ := hp 1 .group rfl
    have hv : runParser env .group f1 = .ok v := hv0
    have h1 := scanPosAllParser env ["group", f1, "info"] 1 f1 .group v hv
      (initCands [hdl16, hdl17, hdl18, hdl19, hdl20, hdl21, hdl22, hdl23]) (by decide)
    have h1x : scanPos env ["group", f1, "info"] 1 f1 (initCands [hdl16, hdl17, hdl18, hdl19, hdl20, hdl21, hdl22, hdl23]) =
        .ok [(⟨hdl16, [v]⟩ : Cand), (⟨hdl17, [v]⟩ : Cand), (⟨hdl18, [v]⟩ : Cand), (⟨hdl19, [v]⟩ : Cand), (⟨hdl20, [v]⟩ : Cand), (⟨hdl21, [v]⟩ : Cand), (⟨hdl22, [v]⟩ : Cand), (⟨hdl23, [v]⟩ : Cand)] := h1
    have hscan := scanChain3 env "group" f1 "info"
      (initCands Handler.handlers)
      (initCands [hdl16, hdl17, hdl18, hdl19, hdl20, hdl21, hdl22, hdl23])
      [(⟨hdl16, [v]⟩ : Cand), (⟨hdl17, [v]⟩ : Cand), (⟨hdl18, [v]⟩ : Cand), (⟨hdl19, [v]⟩ : Cand), (⟨hdl20, [v]⟩ : Cand), (⟨hdl21, [v]⟩ : Cand), (⟨hdl22, [v]⟩ : Cand), (⟨hdl23, [v]⟩ : Cand)] [⟨hdl17, [v]⟩] rfl h1x rfl
    refine ⟨[("name", v)], ?_, rfl⟩
    rw [show getCommand env (mkToks hdl17 [f0, f1, f2]) =
      getCommandWith Handler.handlers env ["group", f1, "info"] from rfl,
      getCommandWith_scan_ok (by simp) hscan]
    rfl
  · obtain ⟨f0, f1, f2, f3, rfl⟩ := list_len_four hlen
    obtain ⟨v, hv0⟩ := hp 1 .group rfl
    have hv : runParser env .group f1 = .ok v := hv0
    have h1 := scanPosAllParser env ["group", f1, "addCommand", f3] 1 f1 .group v hv
      (initCands [hdl16, hdl17, hdl18, hdl19, hdl20, hdl21, hdl22, hdl23]) (by decide)
    have h1x : scanPos env ["group", f1, "addCommand", f3] 1 f1 (initCands [hdl16, hdl17, hdl18, hdl19, hdl20, hdl21, hdl22, hdl23]) =
        .ok [(⟨hdl16, [v]⟩ : Cand), (⟨hdl17, [v]⟩ : Cand), (⟨hdl18, [v]⟩ : Cand), (⟨hdl19, [v]⟩ : Cand), (⟨hdl20, [v]⟩ : Cand), (⟨hdl21, [v]⟩ : Cand), (⟨hdl22, [v]⟩ : Cand), (⟨hdl23, [v]⟩ : Cand)] := h1
    obtain ⟨v2, hv20⟩ := hp 3 .entry rfl
    have hv2 : runParser env .entry f3 = .ok v2 := hv20
    have h3 : scanPos env ["group", f1, "addCommand", f3] 3 f3 [⟨hdl18, [v]⟩] =
        .ok [⟨hdl18, [v, v2]⟩] := by
      rw [scanPos_cons_keep _ _ _ _ _ _ (stepOne_parser_ok rfl hv2),
        scanPos_nil]
      rfl
    have hscan := scanChain4 env "group" f1 "addCommand" f3
      (initCands Handler.handlers)
      (initCands [hdl16, hdl17, hdl18, hdl19, hdl20, hdl21, hdl22, hdl23])
      [(⟨hdl16, [v]⟩ : Cand), (⟨hdl17, [v]⟩ : Cand), (⟨hdl18, [v]⟩ : Cand), (⟨hdl19, [v]⟩ : Cand), (⟨hdl20, [v]⟩ : Cand), (⟨hdl21, [v]⟩ : Cand), (⟨hdl22, [v]⟩ : Cand), (⟨hdl23, [v]⟩ : Cand)] [⟨hdl18, [v]⟩]
      [⟨hdl18, [v, v2]⟩] rfl h1x rfl h3
    refine ⟨[("name", v), ("command", v2)], ?_, rfl⟩
    rw [show getCommand env (mkToks hdl18 [f0, f1, f2, f3]) =
      getCommandWith Handler.handlers env ["group", f1, "addCommand", f3] from rfl,
      getCommandWith_scan_ok (by simp) hscan]
    rfl
  · obtain ⟨f0, f1, f2, f3, rfl⟩ := list_len_four hlen
    obtain ⟨v, hv0⟩ := hp 1 .group rfl
    have hv : runParser env .group f1 = .ok v := hv0
    have h1 := scanPosAllParser env ["group", f1, "removeCommand", f3] 1 f1 .group v hv
      (initCands [hdl16, hdl17, hdl18, hdl19, hdl20, hdl21, hdl22, hdl23]) (by decide)
    have h1x : scanPos env ["group", f1, "removeCommand", f3] 1 f1 (initCands [hdl16, hdl17, hdl18, hdl19, hdl20, hdl21, hdl22, hdl23]) =
        .ok [(⟨hdl16, [v]⟩ : Cand), (⟨hdl17, [v]⟩ : Cand), (⟨hdl18, [v]⟩ : Cand), (⟨hdl19, [v]⟩ : Cand), (⟨hdl20, [v]⟩ : Cand), (⟨hdl21, [v]⟩ : Cand), (⟨hdl22, [v]⟩ : Cand), (⟨hdl23, [v]⟩ : Cand)] := h1
    obtain ⟨v2, hv20⟩ := hp 3 .entry rfl
    have hv2 : runParser env .entry f3 = .ok v2 := hv20
    have h3 : scanPos env ["group", f1, "removeCommand", f3] 3 f3 [⟨hdl19, [v]⟩] =
        .ok [⟨hdl19, [v, v2]⟩] := by
      rw [scanPos_cons_keep _ _ _ _ _ _ (stepOne_parser_ok rfl hv2),
        scanPos_nil]
      rfl
    have hscan := scanChain4 env "group" f1 "removeCommand" f3
      (initCands Handler.handlers)
      (initCands [hdl16, hdl17, hdl18, hdl19, hdl20, hdl21, hdl22, hdl23])
      [(⟨hdl16, [v]⟩ : Cand), (⟨hdl17, [v]⟩ : Cand), (⟨hdl18, [v]⟩ : Cand), (⟨hdl19, [v]⟩ : Cand), (⟨hdl20, [v]⟩ : Cand), (⟨hdl21, [v]⟩ : Cand), (⟨hdl22, [v]⟩ : Cand), (⟨hdl23, [v]⟩ : Cand)] [⟨hdl19, [v]⟩]
      [⟨hdl19, [v, v2]⟩] rfl h1x rfl h3
    refine ⟨[("name", v), ("command", v2)], ?_, rfl⟩
    rw [show getCommand env (mkToks hdl19 [f0, f1, f2, f3]) =
      getCommandWith Handler.handlers env ["group", f1, "removeCommand", f3] from rfl,
      getCommandWith_scan_ok (by simp) hscan]
    rfl
  · obtain ⟨f0, f1, f2, f3, rfl⟩ := list_len_four hlen
    obtain ⟨v, hv0⟩ := hp 1 .group rfl
    have hv : runParser env .group f1 = .ok v := hv0
    have h1 := scanPosAllParser env ["group", f1, "addUser", f3] 1 f1 .group v hv
      (initCands [hdl16, hdl17, hdl18, hdl19, hdl20, hdl21, hdl22, hdl23]) (by decide)
    have h1x : scanPos env ["group", f1, "addUser", f3] 1 f1 (initCands [hdl16, hdl17, hdl18, hdl19, hdl20, hdl21, hdl22, hdl23]) =
        .ok [(⟨hdl16, [v]⟩ : Cand), (⟨hdl17, [v]⟩ : Cand), (⟨hdl18, [v]⟩ : Cand), (⟨hdl19, [v]⟩ : Cand), (⟨hdl20, [v]⟩ : Cand), (⟨hdl21, [v]⟩ : Cand), (⟨hdl22, [v]⟩ : Cand), (⟨hdl23, [v]⟩ : Cand)] := h1
    have hscan := scanChain4 env "group" f1 "addUser" f3
      (initCands Handler.handlers)
      (initCands [hdl16, hdl17, hdl18, hdl19, hdl20, hdl21, hdl22, hdl23])
      [(⟨hdl16, [v]⟩ : Cand), (⟨hdl17, [v]⟩ : Cand), (⟨hdl18, [v]⟩ : Cand), (⟨hdl19, [v]⟩ : Cand), (⟨hdl20, [v]⟩ : Cand), (⟨hdl21, [v]⟩ : Cand), (⟨hdl22, [v]⟩ : Cand), (⟨hdl23, [v]⟩ : Cand)] [⟨hdl20, [v]⟩]
      [⟨hdl20, [v, Value.vStr f3]⟩] rfl h1x rfl rfl
    refine ⟨[("name", v), ("user", Value.vStr f3)], ?_, rfl⟩
    rw [show getCommand env (mkToks hdl20 [f0, f1, f2, f3]) =
      getCommandWith Handler.handlers env ["group", f1, "addUser", f3] from rfl,
      getCommandWith_scan_ok (by simp) hscan]
    rfl
  · obtain ⟨f0, f1, f2, f3, rfl⟩ := list_len_four hlen
    obtain ⟨v, hv0⟩ := hp 1 .group rfl
    have hv : runParser env .group f1 = .ok v := hv0
    have h1 := scanPosAllParser env ["group", f1, "removeUser", f3] 1 f1 .group v hv
      (initCands [hdl16, hdl17, hdl18, hdl19, hdl20, hdl21, hdl22, hdl23]) (by decide)
    have h1x : scanPos env ["group", f1, "removeUser", f3] 1 f1 (initCands [hdl16, hdl17, hdl18, hdl19, hdl20, hdl21, hdl22, hdl23]) =
        .ok [(⟨hdl16, [v]⟩ : Cand), (⟨hdl17, [v]⟩ : Cand), (⟨hdl18, [v]⟩ : Cand), (⟨hdl19, [v]⟩ : Cand), (⟨hdl20, [v]⟩ : Cand), (⟨hdl21, [v]⟩ : Cand), (⟨hdl22, [v]⟩ : Cand), (⟨hdl23, [v]⟩ : Cand)] := h1
    have hscan := scanChain4 env "group" f1 "removeUser" f3
      (initCands Handler.handlers)
      (initCands [hdl16, hdl17, hdl18, hdl19, hdl20, hdl21, hdl22, hdl23])
      [(⟨hdl16, [v]⟩ : Cand), (⟨hdl17, [v]⟩ : Cand), (⟨hdl18, [v]⟩ : Cand), (⟨hdl19, [v]⟩ : Cand), (⟨hdl20, [v]⟩ : Cand), (⟨hdl21, [v]⟩ : Cand), (⟨hdl22, [v]⟩ : Cand), (⟨hdl23, [v]⟩ : Cand)] [⟨hdl21, [v]⟩]
      [⟨hdl21, [v, Value.vStr f3]⟩] rfl h1x rfl rfl
    refine ⟨[("name", v), ("user", Value.vStr f3)], ?_, rfl⟩
    rw [show getCommand env (mkToks hdl21 [f0, f1, f2, f3]) =
      getCommandWith Handler.handlers env ["group", f1, "removeUser", f3] from rfl,
      getCommandWith_scan_ok (by simp) hscan]
    rfl
  · obtain ⟨f0, f1, f2, f3, rfl⟩ := list_len_four hlen
    obtain ⟨v, hv0⟩ := hp 1 .group rfl
    have hv : runParser env .group f1 = .ok v := hv0
    have h1 := scanPosAllParser env ["group", f1, "addRole", f3] 1 f1 .group v hv
      (initCands [hdl16, hdl17, hdl18, hdl19, hdl20, hdl21, hdl22, hdl23]) (by decide)
    have h1x : scanPos env ["group", f1, "addRole", f3] 1 f1 (initCands [hdl16, hdl17, hdl18, hdl19, hdl20, hdl21, hdl22, hdl23]) =
        .ok [(⟨hdl16, [v]⟩ : Cand), (⟨hdl17, [v]⟩ : Cand), (⟨hdl18, [v]⟩ : Cand), (⟨hdl19, [v]⟩ : Cand), (⟨hdl20, [v]⟩ : Cand), (⟨hdl21, [v]⟩ : Cand), (⟨hdl22, [v]⟩ : Cand), (⟨hdl23, [v]⟩ : Cand)] := h1
    have hscan := scanChain4 env "group" f1 "addRole" f3
      (initCands Handler.handlers)
      (initCands [hdl16, hdl17, hdl18, hdl19, hdl20, hdl21, hdl22, hdl23])
      [(⟨hdl16, [v]⟩ : Cand), (⟨hdl17, [v]⟩ : Cand), (⟨hdl18, [v]⟩ : Cand), (⟨hdl19, [v]⟩ : Cand), (⟨hdl20, [v]⟩ : Cand), (⟨hdl21, [v]⟩ : Cand), (⟨hdl22, [v]⟩ : Cand), (⟨hdl23, [v]⟩ : Cand)] [⟨hdl22, [v]⟩]
      [⟨hdl22, [v, Value.vStr f3]⟩] rfl h1x rfl rfl
    refine ⟨[("name", v), ("role", Value.vStr f3)], ?_, rfl⟩
    rw [show getCommand env (mkToks hdl22 [f0, f1, f2, f3]) =
      getCommandWith Handler.handlers env ["group", f1, "addRole", f3] from rfl,
      getCommandWith_scan_ok (by simp) hscan]
    rfl
  · obtain ⟨f0, f1, f2, f3, rfl⟩ := list_len_four hlen
    obtain ⟨v, hv0⟩ := hp 1 .group rfl
    have hv : runParser env .group f1 = .ok v := hv0
    have h1 := scanPosAllParser env ["group", f1, "removeRole", f3] 1 f1 .group v hv
      (initCands [hdl16, hdl17, hdl18, hdl19, hdl20, hdl21, hdl22, hdl23]) (by decide)
    have h1x : scanPos env ["group", f1, "removeRole", f3] 1 f1 (initCands [hdl16, hdl17, hdl18, hdl19, hdl20, hdl21, hdl22, hdl23]) =
        .ok [(⟨hdl16, [v]⟩ : Cand), (⟨hdl17, [v]⟩ : Cand), (⟨hdl18, [v]⟩ : Cand), (⟨hdl19, [v]⟩ : Cand), (⟨hdl20, [v]⟩ : Cand), (⟨hdl21, [v]⟩ : Cand), (⟨hdl22, [v]⟩ : Cand), (⟨hdl23, [v]⟩ : Cand)] := h1
    have hscan := scanChain4 env "group" f1 "removeRole" f3
      (initCands Handler.handlers)
      (initCands [hdl16, hdl17, hdl18, hdl19, hdl20, hdl21, hdl22, hdl23])
      [(⟨hdl16, [v]⟩ : Cand), (⟨hdl17, [v]⟩ : Cand), (⟨hdl18, [v]⟩ : Cand), (⟨hdl19, [v]⟩ : Cand), (⟨hdl20, [v]⟩ : Cand), (⟨hdl21, [v]⟩ : Cand), (⟨hdl22, [v]⟩ : Cand), (⟨hdl23, [v]⟩ : Cand)] [⟨hdl23, [v]⟩]
      [⟨hdl23, [v, Value.vStr f3]⟩] rfl h1x rfl rfl
    refine ⟨[("name", v), ("role", Value.vStr f3)], ?_, rfl⟩
    rw [show getCommand env (mkToks hdl23 [f0, f1, f2, f3]) =
      getCommandWith Handler.handlers env ["group", f1, "removeRole", f3] from rfl,
      getCommandWith_scan_ok (by simp) hscan]
    rfl
  · obtain ⟨f0, rfl⟩ := List.length_eq_one.mp hlen
    exact ⟨[], rfl, rfl⟩
  · obtain ⟨f0, f1, f2, f3, rfl⟩ := list_len_four hlen
    exact ⟨[("name", Value.vStr f1), ("label", Value.vStr f2), ("commands", Value.vRest [f3])], rfl, rfl⟩
  · obtain ⟨f0, f1, rfl⟩ := List.length_eq_two.mp hlen
    obtain ⟨v, hv0⟩ := hp 1 .category rfl
    have hv : runParser env .category f1 = .ok v := hv0
    have h1 := scanPosAllParser env ["removeCategory", f1] 1 f1 .category v hv
      (initCands [hdl26]) (by decide)
    have h1x : scanPos env ["removeCategory", f1] 1 f1 (initCands [hdl26]) =
        .ok [(⟨hdl26, [v]⟩ : Cand)] := h1
    have hscan := scanChain2 env "removeCategory" f1 (initCands Handler.handlers)
      (initCands [hdl26]) [(⟨hdl26, [v]⟩ : Cand)] rfl h1x
    refine ⟨[("name", v)], ?_, rfl⟩
    rw [show getCommand env (mkToks hdl26 [f0, f1]) =
      getCommandWith Handler.handlers env ["removeCategory", f1] from rfl,
      getCommandWith_scan_ok (by simp) hscan]
    rfl
  · obtain ⟨f0, f1, rfl⟩ := List.length_eq_two.mp hlen
    obtain ⟨v, hv0⟩ := hp 1 .category rfl
    have hv : runParser env .category f1 = .ok v := hv0
    have h1 := scanPosAllParser env ["category", f1] 1 f1 .category v hv
      (initCands [hdl27, hdl28, hdl29, hdl30, hdl31, hdl32]) (by decide)
    have h1x : scanPos env ["category", f1] 1 f1 (initCands [hdl27, hdl28, hdl29, hdl30, hdl31, hdl32]) =
        .ok [(⟨hdl27, [v]⟩ : Cand), (⟨hdl28, [v]⟩ : Cand), (⟨hdl29, [v]⟩ : Cand), (⟨hdl30, [v]⟩ : Cand), (⟨hdl31, [v]⟩ : Cand), (⟨hdl32, [v]⟩ : Cand)] := h1
    have hscan := scanChain2 env "category" f1 (initCands Handler.handlers)
      (initCands [hdl27, hdl28, hdl29, hdl30, hdl31, hdl32]) [(⟨hdl27, [v]⟩ : Cand), (⟨hdl28, [v]⟩ : Cand), (⟨hdl29, [v]⟩ : Cand), (⟨hdl30, [v]⟩ : Cand), (⟨hdl31, [v]⟩ : Cand), (⟨hdl32, [v]⟩ : Cand)] rfl h1x
    refine ⟨[("name", v)], ?_, rfl⟩
    rw [show getCommand env (mkToks hdl27 [f0, f1]) =
      getCommandWith Handler.handlers env ["category", f1] from rfl,
      getCommandWith_scan_ok (by simp) hscan]
    rfl
  · obtain ⟨f0, f1, f2, rfl⟩ := List.length_eq_three.mp hlen
    obtain ⟨v, hv0⟩ := hp 1 .category rfl
    have hv : runParser env .category f1 = .ok v := hv0
    have h1 := scanPosAllParser env ["category", f1, "info"] 1 f1 .category v hv
      (initCands [hdl27, hdl28, hdl29, hdl30, hdl31, hdl32]) (by decide)
    have h1x : scanPos env ["category", f1, "info"] 1 f1 (initCands [hdl27, hdl28, hdl29, hdl30, hdl31, hdl32]) =
        .ok [(⟨hdl27, [v]⟩ : Cand), (⟨hdl28, [v]⟩ : Cand), (⟨hdl29, [v]⟩ : Cand), (⟨hdl30, [v]⟩ : Cand), (⟨hdl31, [v]⟩ : Cand), (⟨hdl32, [v]⟩ : Cand)] := h1
    have hscan := scanChain3 env "category" f1 "info"
      (initCands Handler.handlers)
      (initCands [hdl27, hdl28, hdl29, hdl30, hdl31, hdl32])
      [(⟨hdl27, [v]⟩ : Cand), (⟨hdl28, [v]⟩ : Cand), (⟨hdl29, [v]⟩ : Cand), (⟨hdl30, [v]⟩ : Cand), (⟨hdl31, [v]⟩ : Cand), (⟨hdl32, [v]⟩ : Cand)] [⟨hdl28, [v]⟩] rfl h1x rfl
    refine ⟨[("name", v)], ?_, rfl⟩
    rw [show getCommand env (mkToks hdl28 [f0, f1, f2]) =
      getCommandWith Handler.handlers env ["category", f1, "info"] from rfl,
      getCommandWith_scan_ok (by simp) hscan]
    rfl
  · obtain ⟨f0, f1, f2, f3, rfl⟩ := list_len_four hlen
    obtain ⟨v, hv0⟩ := hp 1 .category rfl
    have hv : runParser env .category f1 = .ok v := hv0
    have h1 := scanPosAllParser env ["category", f1, "move", f3] 1 f1 .category v hv
      (initCands [hdl27, hdl28, hdl29, hdl30, hdl31, hdl32]) (by decide)
    have h1x : scanPos env ["category", f1, "move", f3] 1 f1 (initCands [hdl27, hdl28, hdl29, hdl30, hdl31, hdl32]) =
        .ok [(⟨hdl27, [v]⟩ : Cand), (⟨hdl28, [v]⟩ : Cand), (⟨hdl29, [v]⟩ : Cand), (⟨hdl30, [v]⟩ : Cand), (⟨hdl31, [v]⟩ : Cand), (⟨hdl32, [v]⟩ : Cand)] := h1
    have hscan := scanChain4 env "category" f1 "move" f3
      (initCands Handler.handlers)
      (initCands [hdl27, hdl28, hdl29, hdl30, hdl31, hdl32])
      [(⟨hdl27, [v]⟩ : Cand), (⟨hdl28, [v]⟩ : Cand), (⟨hdl29, [v]⟩ : Cand), (⟨hdl30, [v]⟩ : Cand), (⟨hdl31, [v]⟩ : Cand), (⟨hdl32, [v]⟩ : Cand)] [⟨hdl29, [v]⟩]
      [⟨hdl29, [v, Value.vStr f3]⟩] rfl h1x rfl rfl
    refine ⟨[("name", v), ("number", Value.vStr f3)], ?_, rfl⟩
    rw [show getCommand env (mkToks hdl29 [f0, f1, f2, f3]) =
      getCommandWith Handler.handlers env ["category", f1, "move", f3] from rfl,
      getCommandWith_scan_ok (by simp) hscan]
    rfl
  · obtain ⟨f0, f1, f2, f3, rfl⟩ := list_len_four hlen
    obtain ⟨v, hv0⟩ := hp 1 .category rfl
    have hv : runParser env .category f1 = .ok v := hv0
    have h1 := scanPosAllParser env ["category", f1, "setLabel", f3] 1 f1 .category v hv
      (initCands [hdl27, hdl28, hdl29, hdl30, hdl31, hdl32]) (by decide)
    have h1x : scanPos env ["category", f1, "setLabel", f3] 1 f1 (initCands [hdl27, hdl28, hdl29, hdl30, hdl31, hdl32]) =
        .ok [(⟨hdl27, [v]⟩ : Cand), (⟨hdl28, [v]⟩ : Cand), (⟨hdl29, [v]⟩ : Cand), (⟨hdl30, [v]⟩ : Cand), (⟨hdl31, [v]⟩ : Cand), (⟨hdl32, [v]⟩ : Cand)] := h1
    have hscan := scanChain4 env "category" f1 "setLabel" f3
      (initCands Handler.handlers)
      (initCands [hdl27, hdl28, hdl29, hdl30, hdl31, hdl32])
      [(⟨hdl27, [v]⟩ : Cand), (⟨hdl28, [v]⟩ : Cand), (⟨hdl29, [v]⟩ : Cand), (⟨hdl30, [v]⟩ : Cand), (⟨hdl31, [v]⟩ : Cand), (⟨hdl32, [v]⟩ : Cand)] [⟨hdl30, [v]⟩]
      [⟨hdl30, [v, Value.vStr f3]⟩] rfl h1x rfl rfl
    refine ⟨[("name", v), ("label", Value.vStr f3)], ?_, rfl⟩
    rw [show getCommand env (mkToks hdl30 [f0, f1, f2, f3]) =
      getCommandWith Handler.handlers env ["category", f1, "setLabel", f3] from rfl,
      getCommandWith_scan_ok (by simp) hscan]
    rfl
  · obtain ⟨f0, f1, f2, f3, rfl⟩ := list_len_four hlen
    obtain ⟨v, hv0⟩ := hp 1 .category rfl
    have hv : runParser env .category f1 = .ok v := hv0
    have h1 := scanPosAllParser env ["category", f1, "addCommand", f3] 1 f1 .category v hv
      (initCands [hdl27, hdl28, hdl29, hdl30, hdl31, hdl32]) (by decide)
    have h1x : scanPos env ["category", f1, "addCommand", f3] 1 f1 (initCands [hdl27, hdl28, hdl29, hdl30, hdl31, hdl32]) =
        .ok [(⟨hdl27, [v]⟩ : Cand), (⟨hdl28, [v]⟩ : Cand), (⟨hdl29, [v]⟩ : Cand), (⟨hdl30, [v]⟩ : Cand), (⟨hdl31, [v]⟩ : Cand), (⟨hdl32, [v]⟩ : Cand)] := h1
    obtain ⟨v2, hv20⟩ := hp 3 .entry rfl
    have hv2 : runParser env .entry f3 = .ok v2 := hv20
    have h3 : scanPos env ["category", f1, "addCommand", f3] 3 f3 [⟨hdl31, [v]⟩] =
        .ok [⟨hdl31, [v, v2]⟩] := by
      rw [scanPos_cons_keep _ _ _ _ _ _ (stepOne_parser_ok rfl hv2),
        scanPos_nil]
      rfl
    have hscan := scanChain4 env "category" f1 "addCommand" f3
      (initCands Handler.handlers)
      (initCands [hdl27, hdl28, hdl29, hdl30, hdl31, hdl32])
      [(⟨hdl27, [v]⟩ : Cand), (⟨hdl28, [v]⟩ : Cand), (⟨hdl29, [v]⟩ : Cand), (⟨hdl30, [v]⟩ : Cand), (⟨hdl31, [v]⟩ : Cand), (⟨hdl32, [v]⟩ : Cand)] [⟨hdl31, [v]⟩]
      [⟨hdl31, [v, v2]⟩] rfl h1x rfl h3
    refine ⟨[("name", v), ("command", v2)], ?_, rfl⟩
    rw [show getCommand env (mkToks hdl31 [f0, f1, f2, f3]) =
      getCommandWith Handler.handlers env ["category", f1, "addCommand", f3] from rfl,
      getCommandWith_scan_ok (by simp) hscan]
    rfl
  · obtain ⟨f0, f1, f2, f3, rfl⟩ := list_len_four hlen
    obtain ⟨v, hv0⟩ := hp 1 .category rfl
    have hv : runParser env .category f1 = .ok v := hv0
    have h1 := scanPosAllParser env ["category", f1, "removeCommand", f3] 1 f1 .category v hv
      (initCands [hdl27, hdl28, hdl29, hdl30, hdl31, hdl32]) (by decide)
    have h1x : scanPos env ["category", f1, "removeCommand", f3] 1 f1 (initCands [hdl27, hdl28, hdl29, hdl30, hdl31, hdl32]) =
        .ok [(⟨hdl27, [v]⟩ : Cand), (⟨hdl28, [v]⟩ : Cand), (⟨hdl29, [v]⟩ : Cand), (⟨hdl30, [v]⟩ : Cand), (⟨hdl31, [v]⟩ : Cand), (⟨hdl32, [v]⟩ : Cand)] := h1
    have hscan := scanChain4 env "category" f1 "removeCommand" f3
      (initCands Handler.handlers)
      (initCands [hdl27, hdl28, hdl29, hdl30, hdl31, hdl32])
      [(⟨hdl27, [v]⟩ : Cand), (⟨hdl28, [v]⟩ : Cand), (⟨hdl29, [v]⟩ : Cand), (⟨hdl30, [v]⟩ : Cand), (⟨hdl31, [v]⟩ : Cand), (⟨hdl32, [v]⟩ : Cand)] [⟨hdl32, [v]⟩]
      [⟨hdl32, [v, Value.vStr f3]⟩] rfl h1x rfl rfl
    refine ⟨[("name", v), ("command", Value.vStr f3)], ?_, rfl⟩
    rw [show getCommand env (mkToks hdl32 [f0, f1, f2, f3]) =
      getCommandWith Handler.handlers env ["category", f1, "removeCommand", f3] from rfl,
      getCommandWith_scan_ok (by simp) hscan]
    rfl


/-- C6 witness: the round trip applied to signature 1 (`addCommand`),
whose pattern has no typed-parser position, on fills `a b c d`. -/
theorem claim_C6_witness :
    ∃ kw, getCommand env0 (mkToks hdl1 ["a", "b", "c", "d"]) =
        .resolved hdl1.hid kw
      ∧ kw.map Prod.fst = hdl1.params.map Param.pname :=
  claim_C6.1 env0 hdl1 ["a", "b", "c", "d"] (by decide) (by decide)
    (by
      intro j p hj
      exfalso
      rcases j with _ | _ | _ | _ | n
      · simp [hdl1] at hj
      · simp [hdl1] at hj
      · simp [hdl1] at hj
      · simp [hdl1] at hj
      · rw [show hdl1.args[n + 4]? = none from
          List.getElem?_eq_none (by simp [hdl1])] at hj
        cases hj)

end CmdConf
